import Mathlib

/-!
# Courier: a verification development of the transport core

A shallow embedding, in Lean 4, of the reliability core of the Courier
delay-tolerant file-transfer implementation (package `courier`): the send
engine's chunking, FEC parity generation, SACK handling and RTO update; the
receive engine's DATA handling and XOR FEC reconstruction; the custody
manager's request handling; the wire decoder; and the storage commit
behaviour of the send path.

Modelling conventions, used throughout:

* Python `bytes` values are `List Nat` whose elements are the byte values.
* Python `float` time and RTT quantities are modelled as `ℚ`; the concrete
  inputs evaluated below are dyadic rationals on which 64-bit float
  arithmetic is exact.
* Python `set[int]` is `Finset ℕ`; Python `dict` maps are modelled as
  functions into `Option`.
* Randomness (`secrets.randbits`) and the clock (`time.time()`) are passed
  to the modelled operations as explicit arguments.
* Side effects on the store and the network are returned as explicit lists
  of operation descriptors instead of being performed.
-/

namespace Courier

/-- Byte `i` of a byte string, `0` past the end (used for pointwise
reasoning about the XOR-with-extension loops). -/
def byteAt (l : List Nat) (i : Nat) : Nat := l.getD i 0

theorem byteAt_nil (i : Nat) : byteAt [] i = 0 := by
  simp [byteAt]

theorem byteAt_cons_zero (x : Nat) (l : List Nat) : byteAt (x :: l) 0 = x := rfl

theorem byteAt_cons_succ (x : Nat) (l : List Nat) (i : Nat) :
    byteAt (x :: l) (i + 1) = byteAt l i := rfl

/-- Two byte strings of equal length that agree byte-for-byte are equal. -/
theorem byteAt_ext : ∀ (a b : List Nat), a.length = b.length →
    (∀ i, byteAt a i = byteAt b i) → a = b
  | [], [], _, _ => rfl
  | [], _ :: _, h, _ => by simp at h
  | _ :: _, [], h, _ => by simp at h
  | x :: a, y :: b, h, hb => by
    have hx : x = y := hb 0
    have ht : a = b := by
      refine byteAt_ext a b (by simpa using h) ?_
      intro i
      simpa [byteAt_cons_succ] using hb (i + 1)
    rw [hx, ht]

/-!
## CRC-32

`zlib.crc32(data) & 0xFFFFFFFF`: the standard reflected CRC-32 with
polynomial `0xEDB88320`, initial value `0xFFFFFFFF` and final complement.
-/

/-- One shift step of the reflected CRC-32. -/
def crc32Step (c : Nat) : Nat :=
  if c % 2 = 1 then (c / 2) ^^^ 0xEDB88320 else c / 2

/-- `n` shift steps. -/
def crc32Rounds : Nat → Nat → Nat
  | 0, c => c
  | n + 1, c => crc32Rounds n (crc32Step c)

/-- `zlib.crc32(data) & 0xFFFFFFFF` on a byte string. -/
def crc32 (data : List Nat) : Nat :=
  (data.foldl (fun c b => crc32Rounds 8 (c ^^^ b)) 0xFFFFFFFF) ^^^ 0xFFFFFFFF

-- Sanity anchor shared with the repository's own test suite:
-- `zlib.crc32(b"hello world") & 0xFFFFFFFF == 0x0D4A1185`.
set_option maxRecDepth 20000 in
example :
    crc32 [104, 101, 108, 108, 111, 32, 119, 111, 114, 108, 100] = 0x0D4A1185 := by
  decide

/-!
## XOR with extension

`SendEngine._xor_chunks` and `ReceiveEngine._xor_bytes` both fold the
following combine step over a list of payloads: XOR over the common prefix,
then keep the remainder of the longer operand (Python mutates a `bytearray`
in place and extends it when the incoming payload is longer).
-/

/-- One in-place combine step of `_xor_chunks` / `_xor_bytes`:
XOR over the common prefix, keep the tail of the longer operand. -/
def xorExtend : List Nat → List Nat → List Nat
  | [], b => b
  | a, [] => a
  | x :: a, y :: b => (x ^^^ y) :: xorExtend a b

theorem xorExtend_nil_left (b : List Nat) : xorExtend [] b = b := by
  cases b <;> rfl

theorem xorExtend_nil_right (a : List Nat) : xorExtend a [] = a := by
  cases a <;> rfl

theorem byteAt_xorExtend : ∀ (a b : List Nat) (i : Nat),
    byteAt (xorExtend a b) i = byteAt a i ^^^ byteAt b i
  | [], b, i => by simp [xorExtend_nil_left, byteAt_nil, Nat.zero_xor]
  | x :: a, [], i => by simp [xorExtend_nil_right, byteAt_nil, Nat.xor_zero]
  | x :: a, y :: b, 0 => rfl
  | x :: a, y :: b, i + 1 => by
    simpa [xorExtend, byteAt_cons_succ] using byteAt_xorExtend a b i

theorem length_xorExtend : ∀ (a b : List Nat),
    (xorExtend a b).length = max a.length b.length
  | [], b => by simp [xorExtend_nil_left]
  | x :: a, [] => by simp [xorExtend_nil_right]
  | x :: a, y :: b => by
    simp [xorExtend, length_xorExtend a b, Nat.succ_max_succ]

/-- `SendEngine._xor_chunks` on the payload level: fold the combine step
over the block's payloads (empty list yields `b""`). -/
def xorPayloads : List (List Nat) → List Nat
  | [] => []
  | p :: ps => ps.foldl xorExtend p

/-- `ReceiveEngine._xor_bytes(base, others)`. -/
def xorBytes (base : List Nat) (others : List (List Nat)) : List Nat :=
  others.foldl xorExtend base

theorem byteAt_xorBytes (others : List (List Nat)) :
    ∀ (base : List Nat) (i : Nat),
      byteAt (xorBytes base others) i =
        others.foldl (fun acc l => acc ^^^ byteAt l i) (byteAt base i) := by
  induction others with
  | nil => intro base i; rfl
  | cons p ps ih =>
    intro base i
    simpa [xorBytes, byteAt_xorExtend] using ih (xorExtend base p) i

/-- Maximal payload length in a list of payloads. -/
def maxLen (ls : List (List Nat)) : Nat :=
  ls.foldl (fun acc l => max acc l.length) 0

theorem length_xorBytes (others : List (List Nat)) :
    ∀ base : List Nat,
      (xorBytes base others).length =
        others.foldl (fun acc l => max acc l.length) base.length := by
  induction others with
  | nil => intro base; rfl
  | cons p ps ih =>
    intro base
    simpa [xorBytes, length_xorExtend] using ih (xorExtend base p)

/-!
## Fold-XOR algebra

Helper lemmas for reasoning about the XOR folds pointwise.
-/

/-- XOR of a list of bytes. -/
def xorFold (l : List Nat) : Nat := l.foldr (fun a b => a ^^^ b) 0

theorem xorFold_nil : xorFold [] = 0 := rfl

theorem xorFold_cons (x : Nat) (l : List Nat) :
    xorFold (x :: l) = x ^^^ xorFold l := rfl

theorem xorFold_append (a b : List Nat) :
    xorFold (a ++ b) = xorFold a ^^^ xorFold b := by
  induction a with
  | nil => simp [xorFold_nil, xorFold, Nat.zero_xor]
  | cons x t ih => simp [xorFold_cons, ih, Nat.xor_assoc]

theorem foldl_xor_eq_xorFold (l : List Nat) :
    ∀ b : Nat, l.foldl (fun acc x => acc ^^^ x) b = b ^^^ xorFold l := by
  induction l with
  | nil => intro b; simp [xorFold_nil, Nat.xor_zero]
  | cons x t ih =>
    intro b
    rw [List.foldl_cons, ih, xorFold_cons, Nat.xor_assoc]

/-- `filter (· ≠ m)` over `range n` drops exactly the element `m`;
XOR of a function over `range n` splits off the value at `m`. -/
theorem xorFold_range_remove (f : Nat → Nat) :
    ∀ n m, m < n →
      xorFold ((List.range n).map f) =
        f m ^^^ xorFold ((((List.range n).filter (fun j => j ≠ m))).map f) := by
  intro n
  induction n with
  | zero => intro m hm; omega
  | succ n ih =>
    intro m hm
    have hsplit : List.range (n + 1) = List.range n ++ [n] := List.range_succ n
    by_cases hmn : m = n
    · subst hmn
      have hfilter : (List.range m).filter (fun j => j ≠ m) = List.range m := by
        refine List.filter_eq_self.mpr ?_
        intro a ha
        have : a < m := List.mem_range.mp ha
        simp [Nat.ne_of_lt this]
      rw [hsplit, List.map_append, xorFold_append, List.filter_append, hfilter]
      simp [xorFold_cons, xorFold_nil, Nat.xor_zero, Nat.xor_comm]
    · have hm' : m < n := by omega
      rw [hsplit, List.map_append, xorFold_append, List.filter_append, ih m hm']
      have hn : ([n].filter (fun j => j ≠ m)) = [n] := by
        simp [Ne.symm hmn]
      rw [hn]
      simp only [List.map_cons, List.map_nil, List.map_append, xorFold_append]
      rw [Nat.xor_assoc]

theorem filter_range_eq_single (n m : Nat) (hm : m < n) :
    (List.range n).filter (fun j => j = m) = [m] := by
  induction n with
  | zero => omega
  | succ n ih =>
    rw [List.range_succ, List.filter_append]
    by_cases hmn : m = n
    · subst hmn
      have hfilter : (List.range m).filter (fun j => j = m) = [] := by
        refine List.filter_eq_nil_iff.mpr ?_
        intro a ha
        have : a < m := List.mem_range.mp ha
        simp [Nat.ne_of_lt this]
      simp [hfilter]
    · have hm' : m < n := by omega
      rw [ih hm']
      simp [Ne.symm hmn, hmn]

/-!
## Send engine: configuration, chunk creation, FEC encoding

From `courier/config.py` and `courier/send_engine.py`. Numeric timing
fields are modelled as `ℚ` (they participate in float arithmetic).
-/

/-- `config.TransferConfig` (defaults as in `config.py`; note that the
default `max_rto_ms = 500` is smaller than `base_rto_ms = 900`). -/
structure TransferConfig where
  chunk_size : Nat := 1150
  window_size : Nat := 1024
  base_rto_ms : ℚ := 900
  ttl_sec : Nat := 300
  max_rto_ms : ℚ := 500
  pacing_delay_ms : Nat := 0
deriving Repr

/-- `config.FECConfig`. -/
structure FECConfig where
  enabled : Bool := true
  k : Nat := 4
  r : Nat := 2
deriving Repr, DecidableEq

/-- A chunk dictionary as built by `SendEngine._create_chunks` /
`_generate_fec_chunks` and stored by the `Store`. -/
structure Chunk where
  bundle_id : String
  chunk_id : Nat
  is_parity : Bool
  block_id : Nat
  k : Nat
  r : Nat
  payload : List Nat
  checksum : Nat
  flags : Nat
deriving Repr, DecidableEq

/-- The data-chunk loop of `SendEngine._create_chunks`: split the file into
`⌈size/chunk_size⌉` data chunks; `payload = file_data[start:end]` with
`end = min(start + chunk_size, len)`. -/
def createDataChunks (fecCfg : FECConfig) (chunk_size : Nat)
    (file_data : List Nat) (bundle_id : String) (fec_enabled : Bool) :
    List Chunk :=
  let num_data_chunks := (file_data.length + chunk_size - 1) / chunk_size
  (List.range num_data_chunks).map (fun i =>
    { bundle_id := bundle_id
      chunk_id := i
      is_parity := false
      block_id := if fec_enabled = true ∧ 0 < fecCfg.k then i / fecCfg.k else 0
      k := if fec_enabled = true then fecCfg.k else 0
      r := if fec_enabled = true then fecCfg.r else 0
      payload := (file_data.drop (i * chunk_size)).take chunk_size
      checksum := crc32 ((file_data.drop (i * chunk_size)).take chunk_size)
      flags := 0 })

/-- `SendEngine._generate_fec_chunks`: for each block of `k` consecutive
data chunks, `r` identical parity chunks whose payload is the XOR of the
block's payloads, at `chunk_id = num_data_chunks + block_id·r + j`.
`range(0, n, k)` is modelled as the `⌈n/k⌉` block starts `b·k`. -/
def generateFecChunks (fecCfg : FECConfig) (data_chunks : List Chunk)
    (bundle_id : String) : List Chunk :=
  let k := fecCfg.k
  let r := fecCfg.r
  if k = 0 ∨ r = 0 then []
  else
    let num_data_chunks := data_chunks.length
    ((List.range ((num_data_chunks + k - 1) / k)).map (· * k)).flatMap
      (fun block_start =>
        let block_chunks := (data_chunks.drop block_start).take k
        let block_id := block_start / k
        if block_chunks.isEmpty then []
        else
          let parity_data := xorPayloads (block_chunks.map (·.payload))
          (List.range r).map (fun parity_idx =>
            { bundle_id := bundle_id
              chunk_id := num_data_chunks + block_id * r + parity_idx
              is_parity := true
              block_id := block_id
              k := k
              r := r
              payload := parity_data
              checksum := crc32 parity_data
              flags := 0 }))

/-- `SendEngine._create_chunks` (its `fec_enabled` argument is
`use_fec = bool(fec_enabled and fec_config.enabled)` in `send_file`). -/
def createChunks (cfg : TransferConfig) (fecCfg : FECConfig)
    (file_data : List Nat) (bundle_id : String) (fec_enabled : Bool) :
    List Chunk :=
  let data_chunks :=
    createDataChunks fecCfg cfg.chunk_size file_data bundle_id fec_enabled
  if fec_enabled = true ∧ fecCfg.enabled = true ∧ 0 < fecCfg.k ∧ 0 < fecCfg.r
  then data_chunks ++ generateFecChunks fecCfg data_chunks bundle_id
  else data_chunks

/-!
## Storage commit trace

`SQLiteStorage.save_chunks_bulk(chunks)` runs one `BEGIN TRANSACTION` …
`commit` over all its rows; `save_chunk(c)` delegates to
`save_chunks_bulk([c])`. The store is modelled by the trace of operations
it commits; each `chunkTxn` is one atomic transaction.
-/

inductive StorageOp where
  | saveBundle (bundle_id : String) (state : String) (total_chunks : Nat)
  | chunkTxn (rows : List Chunk)
  | updateBundleState (bundle_id : String) (state : String)
  | updateBundleStats (bundle_id : String) (bytes_sent : Nat)
      (chunks_retransmitted : Nat)
deriving Repr, DecidableEq

/-- `SQLiteStorage.save_chunk`: one single-row bulk transaction. -/
def saveChunkOps (c : Chunk) : List StorageOp := [StorageOp.chunkTxn [c]]

/-- `SQLiteStorage.save_chunks_bulk`: one transaction holding all rows
(the empty list commits nothing). -/
def saveChunksBulkOps (cs : List Chunk) : List StorageOp :=
  if cs.isEmpty then [] else [StorageOp.chunkTxn cs]

/-- The persistence performed by `SendEngine.send_file` (lines 98–101):
`save_bundle(...)` followed by one `save_chunk(chunk)` per chunk. Only the
bundle fields relevant to the stated theorems are carried. -/
def sendFilePersistOps (chunks : List Chunk) (bundle_id : String) :
    List StorageOp :=
  StorageOp.saveBundle bundle_id "sending" chunks.length ::
    chunks.flatMap saveChunkOps

/-- The chunk transactions of a storage trace, in commit order. -/
def chunkTxns (ops : List StorageOp) : List (List Chunk) :=
  ops.filterMap (fun op =>
    match op with
    | StorageOp.chunkTxn rows => some rows
    | _ => none)

/-- The chunk rows durable after the first `j` chunk transactions have
committed (a crash point between commits). -/
def durableChunksAfter (txns : List (List Chunk)) (j : Nat) : List Chunk :=
  (txns.take j).flatten

theorem chunkTxns_sendFilePersistOps (chunks : List Chunk) (bundle_id : String) :
    chunkTxns (sendFilePersistOps chunks bundle_id) =
      chunks.map (fun c => [c]) := by
  induction chunks with
  | nil => rfl
  | cons c cs ih =>
    simpa [sendFilePersistOps, chunkTxns, saveChunkOps] using
      congrArg (List.cons [c]) (by simpa [sendFilePersistOps, chunkTxns] using ih)

/-!
## Send engine: in-memory state and SACK handling

`SendState` mirrors the dataclass in `send_engine.py` (the dataclass
declares `send_times`/`retransmitted_chunks` twice; the duplicates denote
the same fields and are modelled once). Timers and timestamps are maps
`chunk_id → Option ℚ`; the network and the chunk cache are passed in as
functions (`sendOk`, `cache`), and the clock as `now`.
-/

structure SendState where
  bundle_id : String
  window_start : Nat := 0
  window_end : Nat := 0
  window_size : Nat := 64
  acked_chunks : Finset Nat := ∅
  retransmit_queue : List Nat := []
  chunk_timers : Nat → Option ℚ := fun _ => none
  send_timestamps : Nat → Option ℚ := fun _ => none
  retransmitted_chunks : Finset Nat := ∅
  timeout_interval : ℚ := 250
  smoothed_rtt : ℚ := 300
  rtt_variance : ℚ := 150
  total_chunks : Nat := 0
  bytes_sent : Nat := 0
  chunks_retransmitted : Nat := 0
  completed : Bool := false
  srtt : ℚ := 0
  rttvar : ℚ := 0
  rto : ℚ := 300

/-- `SendEngine._update_rtt_estimates` (RFC 6298 shape): seed on the first
measurement (`smoothed_rtt` still `0.0` or its initial `300.0`), EWMA
afterwards; then `timeout_interval = max(100, min(srtt + 4·var, max_rto))`. -/
def updateRttEstimates (cfg : TransferConfig) (st : SendState) (rtt : ℚ) :
    SendState :=
  let st :=
    if st.smoothed_rtt = 0 ∨ st.smoothed_rtt = 300 then
      { st with smoothed_rtt := rtt, rtt_variance := rtt / 2 }
    else
      { st with
        rtt_variance :=
          (3 : ℚ) / 4 * st.rtt_variance + 1 / 4 * |st.smoothed_rtt - rtt|
        smoothed_rtt := (7 : ℚ) / 8 * st.smoothed_rtt + 1 / 8 * rtt }
  let rto := st.smoothed_rtt + 4 * st.rtt_variance
  { st with timeout_interval := max 100 (min rto cfg.max_rto_ms) }

/-- Ascending enumeration of a finite set of naturals (kernel-executable;
used where Python iterates a `set[int]` or builds `sorted(set)`). -/
def finsetAscList (s : Finset Nat) : List Nat :=
  (List.range (s.sup id + 1)).filter (fun x => decide (x ∈ s))

/-- The body of the `for chunk_id in newly_acked` loop of `handle_sack`:
an RTT sample for never-retransmitted chunks with a recorded send
timestamp (Karn's rule), then discard the chunk's timer, timestamp and
retransmitted mark. -/
def sackAckStep (cfg : TransferConfig) (now : ℚ) (st : SendState)
    (chunk_id : Nat) : SendState :=
  let st :=
    match st.send_timestamps chunk_id with
    | some ts =>
      if chunk_id ∉ st.retransmitted_chunks then
        updateRttEstimates cfg st (now - ts)
      else st
    | none => st
  { st with
    chunk_timers := fun c => if c = chunk_id then none else st.chunk_timers c
    send_timestamps :=
      fun c => if c = chunk_id then none else st.send_timestamps c
    retransmitted_chunks := st.retransmitted_chunks.erase chunk_id }

/-- The `while window_start < total and window_start in acked` loop. -/
def advanceWindowFrom (acked : Finset Nat) (total : Nat) (ws : Nat) : Nat :=
  if h : ws < total ∧ ws ∈ acked then advanceWindowFrom acked total (ws + 1)
  else ws
termination_by total - ws
decreasing_by omega

/-- One iteration of the `_send_window` loop for a given `chunk_id`:
skip acked chunks, chunks whose retransmit deadline has not passed, and
cache misses; on a successful send, arm the timer, record the first-send
timestamp and advance the byte counter. (The emitted DATA datagram is
`make_data_msg` of the cached chunk; only its state effects are kept.) -/
def sendWindowStep (cache : Nat → Option Chunk) (sendOk : Nat → Bool)
    (now : ℚ) (st : SendState) (chunk_id : Nat) : SendState :=
  if chunk_id ∈ st.acked_chunks then st
  else if (match st.chunk_timers chunk_id with
           | some t => decide (now < t)
           | none => false) = true then st
  else
    match cache chunk_id with
    | none => st
    | some chunk =>
      if sendOk chunk_id then
        { st with
          chunk_timers := fun c =>
            if c = chunk_id then some (now + st.timeout_interval)
            else st.chunk_timers c
          send_timestamps := fun c =>
            if c = chunk_id then some now else st.send_timestamps c
          bytes_sent := st.bytes_sent + chunk.payload.length }
      else st

/-- `SendEngine._send_window`: iterate over `range(window_start,
window_end)` (pacing sleeps do not advance the modelled clock). -/
def sendWindow (cache : Nat → Option Chunk) (sendOk : Nat → Bool)
    (st : SendState) (now : ℚ) : SendState :=
  (List.range' st.window_start (st.window_end - st.window_start)).foldl
    (sendWindowStep cache sendOk now) st

/-- `SendEngine._complete_transfer`: on first completion, set the flag,
persist `state = "delivered"` and the final counters (the in-memory chunk
cache drop has no observable effect here since the cache is a parameter). -/
def completeTransfer (st : SendState) : SendState × List StorageOp :=
  if st.completed then (st, [])
  else
    ({ st with completed := true },
     [StorageOp.updateBundleState st.bundle_id "delivered",
      StorageOp.updateBundleStats st.bundle_id st.bytes_sent
        st.chunks_retransmitted])

/-- The state updates of `SendEngine.handle_sack` up to (and including)
the `window_end` recomputation: OR the message's acked set into the
sender's, run the per-chunk ack loop over `newly_acked`, override
`timeout_interval = max(srtt + 4·rttvar, base_rto_ms)` when anything was
newly acked, advance `window_start`, recompute `window_end`.
Python iterates `newly_acked` (a `set`) in unspecified order — the model
iterates it in increasing order, and every stated theorem is independent
of that order. -/
def handleSackState (cfg : TransferConfig) (st : SendState)
    (acked_chunks : Finset Nat) (now : ℚ) : SendState :=
  let newly := acked_chunks \ st.acked_chunks
  let st1 := { st with acked_chunks := st.acked_chunks ∪ acked_chunks }
  let st2 := (finsetAscList newly).foldl (sackAckStep cfg now) st1
  let st3 :=
    if newly.Nonempty then
      { st2 with
        timeout_interval :=
          max (st2.smoothed_rtt + 4 * st2.rtt_variance) cfg.base_rto_ms }
    else st2
  let st4 :=
    { st3 with
      window_start :=
        advanceWindowFrom st3.acked_chunks st3.total_chunks
          st3.window_start }
  { st4 with
    window_end := min (st4.window_start + st4.window_size) st4.total_chunks }

/-- `SendEngine.handle_sack` for one active bundle. `old_window_end` in
the source is read before the `window_end` recomputation and nothing
before that point mutates `window_end`, so it equals `st.window_end`.
When the acked set covers `total_chunks` ids, `_complete_transfer` runs
and `_send_window` is skipped; otherwise `_send_window` runs only when the
window grew. -/
def handleSack (cfg : TransferConfig) (cache : Nat → Option Chunk)
    (sendOk : Nat → Bool) (st : SendState) (acked_chunks : Finset Nat)
    (now : ℚ) : SendState × List StorageOp :=
  let stm := handleSackState cfg st acked_chunks now
  if stm.total_chunks ≤ stm.acked_chunks.card then completeTransfer stm
  else
    (if st.window_end < stm.window_end then sendWindow cache sendOk stm now
     else stm, [])

/-!
### Structural lemmas about `handle_sack`
-/

theorem advanceWindowFrom_ge (a : Finset Nat) (t ws : Nat) :
    ws ≤ advanceWindowFrom a t ws := by
  unfold advanceWindowFrom
  split
  · have := advanceWindowFrom_ge a t (ws + 1)
    omega
  · exact Nat.le_refl ws
termination_by t - ws
decreasing_by omega

theorem advanceWindowFrom_stop (a : Finset Nat) (t ws : Nat) :
    ¬(advanceWindowFrom a t ws < t ∧ advanceWindowFrom a t ws ∈ a) := by
  unfold advanceWindowFrom
  split
  · exact advanceWindowFrom_stop a t (ws + 1)
  · assumption
termination_by t - ws
decreasing_by omega

theorem advanceWindowFrom_fix (a : Finset Nat) (t ws : Nat) :
    advanceWindowFrom a t (advanceWindowFrom a t ws) =
      advanceWindowFrom a t ws := by
  conv_lhs => rw [advanceWindowFrom]
  rw [dif_neg (advanceWindowFrom_stop a t ws)]

theorem updateRttEstimates_core (cfg : TransferConfig) (st : SendState)
    (rtt : ℚ) :
    (updateRttEstimates cfg st rtt).acked_chunks = st.acked_chunks ∧
    (updateRttEstimates cfg st rtt).window_start = st.window_start ∧
    (updateRttEstimates cfg st rtt).window_end = st.window_end ∧
    (updateRttEstimates cfg st rtt).window_size = st.window_size ∧
    (updateRttEstimates cfg st rtt).total_chunks = st.total_chunks ∧
    (updateRttEstimates cfg st rtt).completed = st.completed ∧
    (updateRttEstimates cfg st rtt).bundle_id = st.bundle_id ∧
    (updateRttEstimates cfg st rtt).bytes_sent = st.bytes_sent ∧
    (updateRttEstimates cfg st rtt).chunks_retransmitted =
      st.chunks_retransmitted := by
  unfold updateRttEstimates
  dsimp only
  split <;> simp

theorem sackAckStep_core (cfg : TransferConfig) (now : ℚ) (st : SendState)
    (c : Nat) :
    (sackAckStep cfg now st c).acked_chunks = st.acked_chunks ∧
    (sackAckStep cfg now st c).window_start = st.window_start ∧
    (sackAckStep cfg now st c).window_end = st.window_end ∧
    (sackAckStep cfg now st c).window_size = st.window_size ∧
    (sackAckStep cfg now st c).total_chunks = st.total_chunks ∧
    (sackAckStep cfg now st c).completed = st.completed ∧
    (sackAckStep cfg now st c).bundle_id = st.bundle_id ∧
    (sackAckStep cfg now st c).bytes_sent = st.bytes_sent ∧
    (sackAckStep cfg now st c).chunks_retransmitted =
      st.chunks_retransmitted := by
  unfold sackAckStep
  dsimp only
  cases h : st.send_timestamps c with
  | none => simp
  | some ts =>
    by_cases hc : c ∈ st.retransmitted_chunks
    · simp [hc]
    · simpa [hc] using updateRttEstimates_core cfg st (now - ts)

theorem foldl_sackAckStep_core (cfg : TransferConfig) (now : ℚ)
    (l : List Nat) :
    ∀ st : SendState,
      ((l.foldl (sackAckStep cfg now) st).acked_chunks = st.acked_chunks ∧
       (l.foldl (sackAckStep cfg now) st).window_start = st.window_start ∧
       (l.foldl (sackAckStep cfg now) st).window_end = st.window_end ∧
       (l.foldl (sackAckStep cfg now) st).window_size = st.window_size ∧
       (l.foldl (sackAckStep cfg now) st).total_chunks = st.total_chunks ∧
       (l.foldl (sackAckStep cfg now) st).completed = st.completed ∧
       (l.foldl (sackAckStep cfg now) st).bundle_id = st.bundle_id ∧
       (l.foldl (sackAckStep cfg now) st).bytes_sent = st.bytes_sent ∧
       (l.foldl (sackAckStep cfg now) st).chunks_retransmitted =
         st.chunks_retransmitted) := by
  induction l with
  | nil => intro st; exact ⟨rfl, rfl, rfl, rfl, rfl, rfl, rfl, rfl, rfl⟩
  | cons x t ih =>
    intro st
    have h1 := sackAckStep_core cfg now st x
    have h2 := ih (sackAckStep cfg now st x)
    simp only [List.foldl_cons]
    exact ⟨h2.1.trans h1.1, h2.2.1.trans h1.2.1, h2.2.2.1.trans h1.2.2.1,
      h2.2.2.2.1.trans h1.2.2.2.1, h2.2.2.2.2.1.trans h1.2.2.2.2.1,
      h2.2.2.2.2.2.1.trans h1.2.2.2.2.2.1,
      h2.2.2.2.2.2.2.1.trans h1.2.2.2.2.2.2.1,
      h2.2.2.2.2.2.2.2.1.trans h1.2.2.2.2.2.2.2.1,
      h2.2.2.2.2.2.2.2.2.trans h1.2.2.2.2.2.2.2.2⟩

theorem sendWindowStep_core (cache : Nat → Option Chunk)
    (sendOk : Nat → Bool) (now : ℚ) (st : SendState) (c : Nat) :
    (sendWindowStep cache sendOk now st c).acked_chunks = st.acked_chunks ∧
    (sendWindowStep cache sendOk now st c).window_start = st.window_start ∧
    (sendWindowStep cache sendOk now st c).window_end = st.window_end ∧
    (sendWindowStep cache sendOk now st c).total_chunks = st.total_chunks ∧
    (sendWindowStep cache sendOk now st c).completed = st.completed ∧
    (sendWindowStep cache sendOk now st c).timeout_interval =
      st.timeout_interval ∧
    (sendWindowStep cache sendOk now st c).smoothed_rtt = st.smoothed_rtt ∧
    (sendWindowStep cache sendOk now st c).rtt_variance = st.rtt_variance ∧
    (sendWindowStep cache sendOk now st c).bundle_id = st.bundle_id := by
  unfold sendWindowStep
  split
  · simp
  · split
    · simp
    · cases cache c
      · simp
      · dsimp only
        split <;> simp

theorem foldl_sendWindowStep_core (cache : Nat → Option Chunk)
    (sendOk : Nat → Bool) (now : ℚ) (l : List Nat) :
    ∀ st : SendState,
      ((l.foldl (sendWindowStep cache sendOk now) st).acked_chunks =
         st.acked_chunks ∧
       (l.foldl (sendWindowStep cache sendOk now) st).window_start =
         st.window_start ∧
       (l.foldl (sendWindowStep cache sendOk now) st).window_end =
         st.window_end ∧
       (l.foldl (sendWindowStep cache sendOk now) st).total_chunks =
         st.total_chunks ∧
       (l.foldl (sendWindowStep cache sendOk now) st).completed =
         st.completed ∧
       (l.foldl (sendWindowStep cache sendOk now) st).timeout_interval =
         st.timeout_interval ∧
       (l.foldl (sendWindowStep cache sendOk now) st).smoothed_rtt =
         st.smoothed_rtt ∧
       (l.foldl (sendWindowStep cache sendOk now) st).rtt_variance =
         st.rtt_variance ∧
       (l.foldl (sendWindowStep cache sendOk now) st).bundle_id =
         st.bundle_id) := by
  induction l with
  | nil => intro st; exact ⟨rfl, rfl, rfl, rfl, rfl, rfl, rfl, rfl, rfl⟩
  | cons x t ih =>
    intro st
    have h1 := sendWindowStep_core cache sendOk now st x
    have h2 := ih (sendWindowStep cache sendOk now st x)
    simp only [List.foldl_cons]
    exact ⟨h2.1.trans h1.1, h2.2.1.trans h1.2.1, h2.2.2.1.trans h1.2.2.1,
      h2.2.2.2.1.trans h1.2.2.2.1, h2.2.2.2.2.1.trans h1.2.2.2.2.1,
      h2.2.2.2.2.2.1.trans h1.2.2.2.2.2.1,
      h2.2.2.2.2.2.2.1.trans h1.2.2.2.2.2.2.1,
      h2.2.2.2.2.2.2.2.1.trans h1.2.2.2.2.2.2.2.1,
      h2.2.2.2.2.2.2.2.2.trans h1.2.2.2.2.2.2.2.2⟩

theorem sendWindow_core (cache : Nat → Option Chunk) (sendOk : Nat → Bool)
    (st : SendState) (now : ℚ) :
    (sendWindow cache sendOk st now).acked_chunks = st.acked_chunks ∧
    (sendWindow cache sendOk st now).window_start = st.window_start ∧
    (sendWindow cache sendOk st now).window_end = st.window_end ∧
    (sendWindow cache sendOk st now).total_chunks = st.total_chunks ∧
    (sendWindow cache sendOk st now).completed = st.completed ∧
    (sendWindow cache sendOk st now).timeout_interval =
      st.timeout_interval ∧
    (sendWindow cache sendOk st now).smoothed_rtt = st.smoothed_rtt ∧
    (sendWindow cache sendOk st now).rtt_variance = st.rtt_variance ∧
    (sendWindow cache sendOk st now).bundle_id = st.bundle_id :=
  foldl_sendWindowStep_core cache sendOk now _ st

theorem foldl_sackAckStep_acked (cfg : TransferConfig) (now : ℚ)
    (l : List Nat) (st : SendState) :
    ((l.foldl (sackAckStep cfg now) st).acked_chunks = st.acked_chunks) :=
  (foldl_sackAckStep_core cfg now l st).1

theorem foldl_sackAckStep_ws (cfg : TransferConfig) (now : ℚ)
    (l : List Nat) (st : SendState) :
    ((l.foldl (sackAckStep cfg now) st).window_start = st.window_start) :=
  (foldl_sackAckStep_core cfg now l st).2.1

theorem foldl_sackAckStep_we (cfg : TransferConfig) (now : ℚ)
    (l : List Nat) (st : SendState) :
    ((l.foldl (sackAckStep cfg now) st).window_end = st.window_end) :=
  (foldl_sackAckStep_core cfg now l st).2.2.1

theorem foldl_sackAckStep_wsize (cfg : TransferConfig) (now : ℚ)
    (l : List Nat) (st : SendState) :
    ((l.foldl (sackAckStep cfg now) st).window_size = st.window_size) :=
  (foldl_sackAckStep_core cfg now l st).2.2.2.1

theorem foldl_sackAckStep_total (cfg : TransferConfig) (now : ℚ)
    (l : List Nat) (st : SendState) :
    ((l.foldl (sackAckStep cfg now) st).total_chunks = st.total_chunks) :=
  (foldl_sackAckStep_core cfg now l st).2.2.2.2.1

theorem foldl_sackAckStep_completed (cfg : TransferConfig) (now : ℚ)
    (l : List Nat) (st : SendState) :
    ((l.foldl (sackAckStep cfg now) st).completed = st.completed) :=
  (foldl_sackAckStep_core cfg now l st).2.2.2.2.2.1

theorem foldl_sackAckStep_bid (cfg : TransferConfig) (now : ℚ)
    (l : List Nat) (st : SendState) :
    ((l.foldl (sackAckStep cfg now) st).bundle_id = st.bundle_id) :=
  (foldl_sackAckStep_core cfg now l st).2.2.2.2.2.2.1

theorem foldl_sackAckStep_bytes (cfg : TransferConfig) (now : ℚ)
    (l : List Nat) (st : SendState) :
    ((l.foldl (sackAckStep cfg now) st).bytes_sent = st.bytes_sent) :=
  (foldl_sackAckStep_core cfg now l st).2.2.2.2.2.2.2.1

theorem foldl_sackAckStep_retx (cfg : TransferConfig) (now : ℚ)
    (l : List Nat) (st : SendState) :
    ((l.foldl (sackAckStep cfg now) st).chunks_retransmitted =
      st.chunks_retransmitted) :=
  (foldl_sackAckStep_core cfg now l st).2.2.2.2.2.2.2.2

theorem sendWindow_acked (cache : Nat → Option Chunk) (sendOk : Nat → Bool)
    (st : SendState) (now : ℚ) :
    (sendWindow cache sendOk st now).acked_chunks = st.acked_chunks :=
  (sendWindow_core cache sendOk st now).1

theorem sendWindow_ws (cache : Nat → Option Chunk) (sendOk : Nat → Bool)
    (st : SendState) (now : ℚ) :
    (sendWindow cache sendOk st now).window_start = st.window_start :=
  (sendWindow_core cache sendOk st now).2.1

theorem sendWindow_completed (cache : Nat → Option Chunk)
    (sendOk : Nat → Bool) (st : SendState) (now : ℚ) :
    (sendWindow cache sendOk st now).completed = st.completed :=
  (sendWindow_core cache sendOk st now).2.2.2.2.1

theorem sendWindow_timeout (cache : Nat → Option Chunk)
    (sendOk : Nat → Bool) (st : SendState) (now : ℚ) :
    (sendWindow cache sendOk st now).timeout_interval =
      st.timeout_interval :=
  (sendWindow_core cache sendOk st now).2.2.2.2.2.1

theorem sendWindow_srtt (cache : Nat → Option Chunk) (sendOk : Nat → Bool)
    (st : SendState) (now : ℚ) :
    (sendWindow cache sendOk st now).smoothed_rtt = st.smoothed_rtt :=
  (sendWindow_core cache sendOk st now).2.2.2.2.2.2.1

theorem sendWindow_rttvar (cache : Nat → Option Chunk)
    (sendOk : Nat → Bool) (st : SendState) (now : ℚ) :
    (sendWindow cache sendOk st now).rtt_variance = st.rtt_variance :=
  (sendWindow_core cache sendOk st now).2.2.2.2.2.2.2.1

theorem completeTransfer_fst_acked (st : SendState) :
    (completeTransfer st).1.acked_chunks = st.acked_chunks := by
  unfold completeTransfer; split <;> rfl

theorem completeTransfer_fst_ws (st : SendState) :
    (completeTransfer st).1.window_start = st.window_start := by
  unfold completeTransfer; split <;> rfl

theorem completeTransfer_fst_completed (st : SendState) :
    (completeTransfer st).1.completed = true := by
  unfold completeTransfer
  split
  · next h => simpa using h
  · rfl

theorem completeTransfer_fst_timeout (st : SendState) :
    (completeTransfer st).1.timeout_interval = st.timeout_interval := by
  unfold completeTransfer; split <;> rfl

theorem completeTransfer_fst_srtt (st : SendState) :
    (completeTransfer st).1.smoothed_rtt = st.smoothed_rtt := by
  unfold completeTransfer; split <;> rfl

theorem completeTransfer_fst_rttvar (st : SendState) :
    (completeTransfer st).1.rtt_variance = st.rtt_variance := by
  unfold completeTransfer; split <;> rfl

theorem completeTransfer_snd (st : SendState) :
    (completeTransfer st).2 =
      if st.completed then ([] : List StorageOp)
      else
        [StorageOp.updateBundleState st.bundle_id "delivered",
         StorageOp.updateBundleStats st.bundle_id st.bytes_sent
           st.chunks_retransmitted] := by
  unfold completeTransfer; split <;> simp_all

theorem handleSackState_acked (cfg : TransferConfig) (st : SendState)
    (m : Finset Nat) (now : ℚ) :
    (handleSackState cfg st m now).acked_chunks = st.acked_chunks ∪ m := by
  unfold handleSackState
  by_cases hne : (m \ st.acked_chunks).Nonempty <;>
    simp [hne, foldl_sackAckStep_acked]

theorem handleSackState_total (cfg : TransferConfig) (st : SendState)
    (m : Finset Nat) (now : ℚ) :
    (handleSackState cfg st m now).total_chunks = st.total_chunks := by
  unfold handleSackState
  by_cases hne : (m \ st.acked_chunks).Nonempty <;>
    simp [hne, foldl_sackAckStep_total]

theorem handleSackState_completed (cfg : TransferConfig) (st : SendState)
    (m : Finset Nat) (now : ℚ) :
    (handleSackState cfg st m now).completed = st.completed := by
  unfold handleSackState
  by_cases hne : (m \ st.acked_chunks).Nonempty <;>
    simp [hne, foldl_sackAckStep_completed]

theorem handleSackState_bid (cfg : TransferConfig) (st : SendState)
    (m : Finset Nat) (now : ℚ) :
    (handleSackState cfg st m now).bundle_id = st.bundle_id := by
  unfold handleSackState
  by_cases hne : (m \ st.acked_chunks).Nonempty <;>
    simp [hne, foldl_sackAckStep_bid]

theorem handleSackState_bytes (cfg : TransferConfig) (st : SendState)
    (m : Finset Nat) (now : ℚ) :
    (handleSackState cfg st m now).bytes_sent = st.bytes_sent := by
  unfold handleSackState
  by_cases hne : (m \ st.acked_chunks).Nonempty <;>
    simp [hne, foldl_sackAckStep_bytes]

theorem handleSackState_retx (cfg : TransferConfig) (st : SendState)
    (m : Finset Nat) (now : ℚ) :
    (handleSackState cfg st m now).chunks_retransmitted =
      st.chunks_retransmitted := by
  unfold handleSackState
  by_cases hne : (m \ st.acked_chunks).Nonempty <;>
    simp [hne, foldl_sackAckStep_retx]

theorem handleSackState_ws (cfg : TransferConfig) (st : SendState)
    (m : Finset Nat) (now : ℚ) :
    (handleSackState cfg st m now).window_start =
      advanceWindowFrom (st.acked_chunks ∪ m) st.total_chunks
        st.window_start := by
  unfold handleSackState
  by_cases hne : (m \ st.acked_chunks).Nonempty <;>
    simp [hne, foldl_sackAckStep_acked, foldl_sackAckStep_total,
      foldl_sackAckStep_ws]

theorem handleSackState_srtt_eq (cfg : TransferConfig) (st : SendState)
    (m : Finset Nat) (now : ℚ) :
    (handleSackState cfg st m now).smoothed_rtt =
      ((finsetAscList (m \ st.acked_chunks)).foldl (sackAckStep cfg now)
        { st with acked_chunks := st.acked_chunks ∪ m }).smoothed_rtt := by
  unfold handleSackState
  by_cases hne : (m \ st.acked_chunks).Nonempty <;> simp [hne]

theorem handleSackState_rttvar_eq (cfg : TransferConfig) (st : SendState)
    (m : Finset Nat) (now : ℚ) :
    (handleSackState cfg st m now).rtt_variance =
      ((finsetAscList (m \ st.acked_chunks)).foldl (sackAckStep cfg now)
        { st with acked_chunks := st.acked_chunks ∪ m }).rtt_variance := by
  unfold handleSackState
  by_cases hne : (m \ st.acked_chunks).Nonempty <;> simp [hne]

theorem handleSackState_rto (cfg : TransferConfig) (st : SendState)
    (m : Finset Nat) (now : ℚ) (hne : (m \ st.acked_chunks).Nonempty) :
    (handleSackState cfg st m now).timeout_interval =
      max ((handleSackState cfg st m now).smoothed_rtt +
            4 * (handleSackState cfg st m now).rtt_variance)
        cfg.base_rto_ms := by
  unfold handleSackState
  simp [hne]

theorem handleSack_fst_acked (cfg : TransferConfig)
    (cache : Nat → Option Chunk) (sendOk : Nat → Bool) (st : SendState)
    (m : Finset Nat) (now : ℚ) :
    (handleSack cfg cache sendOk st m now).1.acked_chunks =
      st.acked_chunks ∪ m := by
  unfold handleSack
  dsimp only
  split
  · rw [completeTransfer_fst_acked, handleSackState_acked]
  · split
    · rw [sendWindow_acked, handleSackState_acked]
    · exact handleSackState_acked cfg st m now

theorem handleSack_fst_ws (cfg : TransferConfig)
    (cache : Nat → Option Chunk) (sendOk : Nat → Bool) (st : SendState)
    (m : Finset Nat) (now : ℚ) :
    (handleSack cfg cache sendOk st m now).1.window_start =
      advanceWindowFrom (st.acked_chunks ∪ m) st.total_chunks
        st.window_start := by
  unfold handleSack
  dsimp only
  split
  · rw [completeTransfer_fst_ws, handleSackState_ws]
  · split
    · rw [sendWindow_ws, handleSackState_ws]
    · exact handleSackState_ws cfg st m now

theorem handleSack_fst_completed (cfg : TransferConfig)
    (cache : Nat → Option Chunk) (sendOk : Nat → Bool) (st : SendState)
    (m : Finset Nat) (now : ℚ) :
    (handleSack cfg cache sendOk st m now).1.completed =
      (st.completed ||
        decide (st.total_chunks ≤ (st.acked_chunks ∪ m).card)) := by
  unfold handleSack
  dsimp only
  split
  · next h =>
    rw [handleSackState_total, handleSackState_acked] at h
    simp [completeTransfer_fst_completed, h]
  · next h =>
    rw [handleSackState_total, handleSackState_acked] at h
    split
    · simp [sendWindow_completed, handleSackState_completed, h]
    · simp [handleSackState_completed, h]

theorem completeTransfer_fst_total (st : SendState) :
    (completeTransfer st).1.total_chunks = st.total_chunks := by
  unfold completeTransfer; split <;> rfl

theorem sendWindow_total (cache : Nat → Option Chunk) (sendOk : Nat → Bool)
    (st : SendState) (now : ℚ) :
    (sendWindow cache sendOk st now).total_chunks = st.total_chunks :=
  (sendWindow_core cache sendOk st now).2.2.2.1

theorem handleSack_fst_total (cfg : TransferConfig)
    (cache : Nat → Option Chunk) (sendOk : Nat → Bool) (st : SendState)
    (m : Finset Nat) (now : ℚ) :
    (handleSack cfg cache sendOk st m now).1.total_chunks =
      st.total_chunks := by
  unfold handleSack
  dsimp only
  split
  · rw [completeTransfer_fst_total, handleSackState_total]
  · split
    · rw [sendWindow_total, handleSackState_total]
    · exact handleSackState_total cfg st m now

theorem handleSack_fst_timeout (cfg : TransferConfig)
    (cache : Nat → Option Chunk) (sendOk : Nat → Bool) (st : SendState)
    (m : Finset Nat) (now : ℚ) :
    (handleSack cfg cache sendOk st m now).1.timeout_interval =
      (handleSackState cfg st m now).timeout_interval := by
  unfold handleSack
  dsimp only
  split
  · rw [completeTransfer_fst_timeout]
  · split
    · rw [sendWindow_timeout]
    · rfl

theorem handleSack_fst_srtt (cfg : TransferConfig)
    (cache : Nat → Option Chunk) (sendOk : Nat → Bool) (st : SendState)
    (m : Finset Nat) (now : ℚ) :
    (handleSack cfg cache sendOk st m now).1.smoothed_rtt =
      (handleSackState cfg st m now).smoothed_rtt := by
  unfold handleSack
  dsimp only
  split
  · rw [completeTransfer_fst_srtt]
  · split
    · rw [sendWindow_srtt]
    · rfl

theorem handleSack_fst_rttvar (cfg : TransferConfig)
    (cache : Nat → Option Chunk) (sendOk : Nat → Bool) (st : SendState)
    (m : Finset Nat) (now : ℚ) :
    (handleSack cfg cache sendOk st m now).1.rtt_variance =
      (handleSackState cfg st m now).rtt_variance := by
  unfold handleSack
  dsimp only
  split
  · rw [completeTransfer_fst_rttvar]
  · split
    · rw [sendWindow_rttvar]
    · rfl

theorem handleSack_snd (cfg : TransferConfig)
    (cache : Nat → Option Chunk) (sendOk : Nat → Bool) (st : SendState)
    (m : Finset Nat) (now : ℚ) :
    (handleSack cfg cache sendOk st m now).2 =
      if st.completed = false ∧
          st.total_chunks ≤ (st.acked_chunks ∪ m).card then
        [StorageOp.updateBundleState st.bundle_id "delivered",
         StorageOp.updateBundleStats st.bundle_id st.bytes_sent
           st.chunks_retransmitted]
      else [] := by
  unfold handleSack
  dsimp only
  split
  · next h =>
    rw [handleSackState_total, handleSackState_acked] at h
    rw [completeTransfer_snd, handleSackState_completed,
      handleSackState_bid, handleSackState_bytes, handleSackState_retx]
    by_cases hc : st.completed <;> simp [hc, h]
  · next h =>
    rw [handleSackState_total, handleSackState_acked] at h
    simp [h]

/-!
## Receive engine

From `courier/receive_engine.py`. The receiver's side effects (SACKs,
DELIVERED, CUSTODY_ACK, file writes, storage writes) are collected as
`RecvOut` events in program order. A SACK event carries the sorted acked
id list handed to `make_sack_msg`; the custody-ack nonce generated by
`secrets.randbits(64)` inside `make_custody_ack_msg` is the explicit
`nonce` argument.
-/

/-- A decoded DATA message dictionary as delivered to
`ReceiveEngine.handle_data`. -/
structure DataMsg where
  bundle_id : String
  chunk_id : Nat
  total_chunks : Nat
  block_id : Nat
  k : Nat
  r : Nat
  checksum : Nat
  payload : List Nat
deriving Repr, DecidableEq

/-- `ReceiveState` (`receive_engine.py`). `data_chunks` and
`parity_chunks` are the Python dicts as maps; a `parity_chunks` entry is
absent iff the list is empty (entries are only created by `setdefault(...)
.append`, hence never empty). -/
structure ReceiveState where
  bundle_id : String
  total_chunks : Nat
  fec_enabled : Bool
  k : Nat
  r : Nat
  output_path : String
  num_data_chunks : Nat := 0
  received_chunks : Finset Nat := ∅
  data_chunks : Nat → Option (List Nat) := fun _ => none
  parity_chunks : Nat → List (List Nat) := fun _ => []
  delivered : Bool := false
  write_buffer : List Chunk := []

/-- An observable effect of the receive path, in program order. -/
inductive RecvOut where
  | storage (op : StorageOp)
  | sendSack (bundle_id : String) (acked : List Nat)
  | sendDelivered (bundle_id : String)
  | sendCustodyAck (bundle_id : String) (ranges : List (Nat × Nat))
      (nonce : Nat)
  | writeFile (path : String) (contents : List Nat)
deriving Repr, DecidableEq

/-- `ReceiveEngine._infer_block_and_data_count`: the first `B ∈ [1,
total_chunks]` with `0 < total_chunks − r·B` and
`k·(B−1) < total_chunks − r·B ≤ k·B`. -/
def inferBlockAndDataCount (total_chunks k r : Nat) :
    Option (Nat × Nat) :=
  ((List.range total_chunks).map (· + 1)).findSome? (fun B =>
    if r * B < total_chunks ∧
        k * (B - 1) < total_chunks - r * B ∧
        total_chunks - r * B ≤ k * B
    then some (B, total_chunks - r * B)
    else none)

/-- `ReceiveEngine._create_receive_state`: build the bundle record
(persisted in state `"receiving"`) and the fresh `ReceiveState`, inferring
`num_data_chunks` and disabling FEC when no solution exists. -/
def createReceiveState (fecCfg : FECConfig) (output_dir : String)
    (bundle_id : String) (total_chunks k r : Nat) :
    ReceiveState × List RecvOut :=
  let fec0 := decide (k ≠ 0) && decide (r ≠ 0) && fecCfg.enabled
  let (fec_enabled, k, r, num_data_chunks) :=
    if fec0 then
      match inferBlockAndDataCount total_chunks k r with
      | some (_, inferred_data) => (true, k, r, inferred_data)
      | none => (false, 0, 0, total_chunks)
    else (fec0, k, r, total_chunks)
  let output_path := output_dir ++ "/bundle_" ++ bundle_id ++ ".bin"
  ({ bundle_id := bundle_id
     total_chunks := total_chunks
     fec_enabled := fec_enabled
     k := k
     r := r
     output_path := output_path
     num_data_chunks := num_data_chunks },
   [RecvOut.storage (StorageOp.saveBundle bundle_id "receiving"
      total_chunks)])

/-- `ReceiveEngine._try_fec_reconstruct`: when all but one data chunk of
the block is present and at least one parity payload is held, recover the
missing payload as `_xor_bytes(parity, known_payloads)`, add it to the
state and persist it with `save_chunk` (checksum recomputed over the
recovered bytes). -/
def tryFecReconstruct (st : ReceiveState) (block_id : Nat) :
    ReceiveState × List RecvOut :=
  if ¬(st.fec_enabled = true ∧ 0 < st.k ∧ 0 < st.r) then (st, [])
  else
    match st.parity_chunks block_id with
    | [] => (st, [])
    | parity_payload :: _ =>
      let start := block_id * st.k
      let stop := min (start + st.k) st.num_data_chunks
      let expected_ids := List.range' start (stop - start)
      let present_ids :=
        expected_ids.filter (fun cid => (st.data_chunks cid).isSome)
      let missing_ids :=
        expected_ids.filter (fun cid => (st.data_chunks cid).isNone)
      match missing_ids with
      | [missing_id] =>
        let known_payloads :=
          present_ids.map (fun cid => (st.data_chunks cid).getD [])
        let recovered := xorBytes parity_payload known_payloads
        ({ st with
           data_chunks := fun c =>
             if c = missing_id then some recovered else st.data_chunks c
           received_chunks := insert missing_id st.received_chunks },
         [RecvOut.storage (StorageOp.chunkTxn
            [{ bundle_id := st.bundle_id
               chunk_id := missing_id
               is_parity := false
               block_id := block_id
               k := st.k
               r := st.r
               payload := recovered
               checksum := crc32 recovered
               flags := 0 }])])
      | _ => (st, [])

/-- `ReceiveEngine._maybe_deliver`: when every data chunk is present,
write the output file (payloads concatenated in `chunk_id` order; the
file-write failure path is not modelled), persist `"delivered"`, mark
delivered and emit DELIVERED plus an empty-range CUSTODY_ACK. -/
def maybeDeliver (st : ReceiveState) (nonce : Nat) :
    ReceiveState × List RecvOut :=
  if st.delivered then (st, [])
  else
    let num_data :=
      if st.num_data_chunks = 0 then st.total_chunks
      else st.num_data_chunks
    let missing :=
      (List.range num_data).filter (fun cid => (st.data_chunks cid).isNone)
    if missing.isEmpty then
      let contents :=
        (List.range num_data).flatMap (fun cid =>
          (st.data_chunks cid).getD [])
      ({ st with delivered := true },
       [RecvOut.writeFile st.output_path contents,
        RecvOut.storage (StorageOp.updateBundleState st.bundle_id
          "delivered"),
        RecvOut.sendDelivered st.bundle_id,
        RecvOut.sendCustodyAck st.bundle_id [] nonce])
    else (st, [])

/-- Store a data payload: `state.data_chunks[chunk_id] = payload`. -/
def storeData (st : ReceiveState) (chunk_id : Nat) (payload : List Nat) :
    ReceiveState :=
  { st with
    data_chunks := fun c =>
      if c = chunk_id then some payload else st.data_chunks c }

/-- Store a parity payload:
`state.parity_chunks.setdefault(block_id, []).append(payload)`. -/
def storeParity (st : ReceiveState) (block_id : Nat) (payload : List Nat) :
    ReceiveState :=
  { st with
    parity_chunks := fun b =>
      if b = block_id then st.parity_chunks b ++ [payload]
      else st.parity_chunks b }

/-- Step 3 of `handle_data`: add to the received set and classify the
payload as data or parity. -/
def receiveClassify (st : ReceiveState) (msg : DataMsg) : ReceiveState :=
  let st :=
    { st with received_chunks := insert msg.chunk_id st.received_chunks }
  if st.fec_enabled = true ∧ 0 < st.k ∧ 0 < st.num_data_chunks then
    if msg.chunk_id < st.num_data_chunks then
      storeData st msg.chunk_id msg.payload
    else storeParity st msg.block_id msg.payload
  else storeData st msg.chunk_id msg.payload

/-- The chunk record appended to the write batch (carries the message's
declared checksum, unverified). -/
def dataChunkRecord (st : ReceiveState) (msg : DataMsg) : Chunk :=
  { bundle_id := msg.bundle_id
    chunk_id := msg.chunk_id
    is_parity :=
      st.fec_enabled && decide (st.num_data_chunks ≤ msg.chunk_id)
    block_id := msg.block_id
    k := st.k
    r := st.r
    payload := msg.payload
    checksum := msg.checksum
    flags := 0 }

/-- Step 5 of `handle_data`: flush the write batch (one atomic
`save_chunks_bulk`) at 500 entries or on completion. -/
def flushIfNeeded (st : ReceiveState) : ReceiveState × List RecvOut :=
  if 500 ≤ st.write_buffer.length ∨
      st.received_chunks.card = st.total_chunks then
    ({ st with write_buffer := [] },
     (saveChunksBulkOps st.write_buffer).map RecvOut.storage)
  else (st, [])

/-- `ReceiveEngine._send_sack` payload: the sorted received set. -/
def sackEvent (st : ReceiveState) : RecvOut :=
  RecvOut.sendSack st.bundle_id (finsetAscList st.received_chunks)

/-- Step 6 of `handle_data`: SACK every 50 chunks, on an empty batch and
at completion. -/
def sackIfNeeded (st : ReceiveState) : List RecvOut :=
  if st.received_chunks.card % 50 = 0 ∨ st.write_buffer.isEmpty ∨
      st.received_chunks.card = st.total_chunks then
    [sackEvent st]
  else []

/-- Steps 3–7 of `handle_data` once the message is known to be fresh. -/
def handleFreshData (st : ReceiveState) (msg : DataMsg) (nonce : Nat) :
    ReceiveState × List RecvOut :=
  let st1 := receiveClassify st msg
  let st2 :=
    { st1 with write_buffer := st1.write_buffer ++ [dataChunkRecord st1 msg] }
  let fecStep :=
    if st2.fec_enabled then tryFecReconstruct st2 msg.block_id
    else (st2, [])
  let flushStep := flushIfNeeded fecStep.1
  let opsS := sackIfNeeded flushStep.1
  let deliverStep := maybeDeliver flushStep.1 nonce
  (deliverStep.1, fecStep.2 ++ flushStep.2 ++ opsS ++ deliverStep.2)

/-- `ReceiveEngine.handle_data` for one bundle (`stOpt` is the entry of
`active_receives`, `none` when the first DATA of the bundle arrives).
Note that the declared `checksum` of the message is never compared with
`crc32(payload)` anywhere on this path; it is only copied into the stored
chunk record. -/
def handleData (fecCfg : FECConfig) (output_dir : String)
    (stOpt : Option ReceiveState) (msg : DataMsg) (nonce : Nat) :
    ReceiveState × List RecvOut :=
  let created :=
    match stOpt with
    | some st => (st, [])
    | none =>
      createReceiveState fecCfg output_dir msg.bundle_id msg.total_chunks
        msg.k msg.r
  if msg.chunk_id ∈ created.1.received_chunks then
    (created.1, created.2 ++ [sackEvent created.1])
  else
    let body := handleFreshData created.1 msg nonce
    (body.1, created.2 ++ body.2)

/-!
## Custody manager

From `courier/custody_manager.py` and `courier/protocol.py`
(`make_custody_ack_msg`). Custody states are the Python strings. The
fresh nonce drawn by `secrets.randbits(64)` is the explicit `nonce`
argument.
-/

/-- `config.CustodyConfig`. -/
structure CustodyConfig where
  max_retries : Nat := 10
  backoff_base_sec : ℚ := 2
deriving Repr

/-- `CustodyRecord` (`custody_manager.py`). -/
structure CustodyRecord where
  bundle_id : String
  owner_node : String
  chunk_ranges : List (Nat × Nat)
  retry_timer : ℚ
  retry_count : Nat := 0
  max_retries : Nat := 10
  state : String := "pending"
deriving Repr, DecidableEq

/-- An observable effect of the custody manager: persisting a record
(`_save_record`: SQLite upsert plus memory cache) or sending a message. -/
inductive CustodyOut where
  | saveRecord (rec : CustodyRecord)
  | sendCustodyAck (bundle_id : String) (ranges : List (Nat × Nat))
      (ack_nonce : Nat)
deriving Repr, DecidableEq

/-- A decoded CUSTODY_REQ message dictionary. -/
structure CustodyReqMsg where
  bundle_id : String
  ranges : List (Nat × Nat)
  ttl_remaining : ℚ
deriving Repr, DecidableEq

/-- `CustodyManager.handle_custody_req`: build the record in state
`"accepted"` with `retry_timer = now + backoff_base_sec` and
`retry_count = 0`, persist it, then send a CUSTODY_ACK carrying the
request's ranges and the freshly drawn 64-bit `nonce`
(`make_custody_ack_msg(bundle_id, ranges)`). The returned record is also
the new `active_records[bundle_id]` entry. -/
def handleCustodyReq (cfg : CustodyConfig) (node_id : String)
    (msg : CustodyReqMsg) (now : ℚ) (nonce : Nat) :
    CustodyRecord × List CustodyOut :=
  let record : CustodyRecord :=
    { bundle_id := msg.bundle_id
      owner_node := node_id
      chunk_ranges := msg.ranges
      retry_timer := now + cfg.backoff_base_sec
      retry_count := 0
      max_retries := cfg.max_retries
      state := "accepted" }
  (record,
   [CustodyOut.saveRecord record,
    CustodyOut.sendCustodyAck msg.bundle_id msg.ranges nonce])

/-!
## Wire decoder

From `courier/network_io.py` (`_deserialize_message` and helpers). Byte
strings are `List Nat`, multi-byte integers big-endian. A `struct.unpack`
over a short buffer raises and the surrounding `try` turns it into `None`;
for a first octet outside 1–5 the decoder falls back to
`json.loads(data.decode("utf-8"))`.
-/

/-- `data[off : off+len]`. -/
def readBytes (data : List Nat) (off len : Nat) : List Nat :=
  (data.drop off).take len

/-- Big-endian value of a byte string. -/
def beNat (bytes : List Nat) : Nat :=
  bytes.foldl (fun acc b => acc * 256 + b) 0

/-- `bytes.rstrip(b"\x00")` (bundle ids are NUL-padded to 16 bytes; the
UTF-8 text decode is modelled as the raw bytes). -/
def rstripZeros (l : List Nat) : List Nat :=
  (l.reverse.dropWhile (fun b => b == 0)).reverse

/-- A JSON value, as returned by the decoder's `json.loads` fallback.
Partial model of Python `json.loads`: exact on (optionally
whitespace-surrounded, optionally signed) integer literals, which are the
only JSON documents any stated theorem decodes; every other document is
conservatively rejected. -/
inductive JsonVal where
  | num (n : Int)
deriving Repr, DecidableEq

/-- ASCII whitespace accepted by the JSON grammar. -/
def jsonWs (b : Nat) : Bool :=
  b == 32 || b == 9 || b == 10 || b == 13

/-- See `JsonVal`. -/
def jsonLoads (data : List Nat) : Option JsonVal :=
  let core := ((data.dropWhile jsonWs).reverse.dropWhile jsonWs).reverse
  let signed :=
    match core with
    | 45 :: rest => (true, rest)
    | _ => (false, core)
  let digits := signed.2
  if digits.isEmpty then none
  else if ¬(digits.all (fun b => 48 ≤ b && b ≤ 57)) then none
  else if 1 < digits.length ∧ digits.head? = some 48 then none
  else
    let n : Int := digits.foldl (fun acc b => acc * 10 + ((b : Int) - 48)) 0
    some (JsonVal.num (if signed.1 then -n else n))

/-- `json.loads` over the custody `ranges` payload. Partial model: only
the empty array `[]` (which is what the receive path actually emits); no
stated theorem decodes a custody datagram with nonempty ranges. -/
def jsonRanges (data : List Nat) : Option (List (Nat × Nat)) :=
  let core := ((data.dropWhile jsonWs).reverse.dropWhile jsonWs).reverse
  if core = [91, 93] then some [] else none

/-- A decoded wire message (the dictionary shapes built by the
`_deserialize_*` helpers). -/
inductive WireMsg where
  | data (bundle_id : List Nat) (chunk_id total_chunks block_id k r : Nat)
      (checksum : Nat) (payload : List Nat)
  | sack (bundle_id : List Nat) (recv_watermark : Int) (bitmap : List Nat)
      (acked_chunks : List Nat)
  | custodyReq (bundle_id : List Nat) (ttl_remaining : Nat)
      (ranges : List (Nat × Nat))
  | custodyAck (bundle_id : List Nat) (ack_nonce : Nat)
      (ranges : List (Nat × Nat))
  | delivered (bundle_id : List Nat)
  | jsonVal (v : JsonVal)
deriving Repr, DecidableEq

/-- The acked set reconstructed by `_deserialize_sack_message`: every id
`≤ watermark`, plus the bitmap bits (`base = watermark + 1`, high-order
bit of byte 0 first). -/
def sackAckedSet (recv_watermark : Int) (bitmap : List Nat) : Finset Nat :=
  let basePart : Finset Nat :=
    if 0 ≤ recv_watermark then Finset.range (recv_watermark.toNat + 1)
    else ∅
  let base := (recv_watermark + 1).toNat
  basePart ∪
    ((List.range bitmap.length).flatMap (fun byte_index =>
      (List.range 8).filterMap (fun bit_pos =>
        if byteAt bitmap byte_index &&& (1 <<< (7 - bit_pos)) ≠ 0 then
          some (base + byte_index * 8 + bit_pos)
        else none))).toFinset

/-- `NetworkIO._deserialize_message`. Header sizes: DATA 40, SACK 23,
CUSTODY_REQ 23, CUSTODY_ACK 27, DELIVERED 17. -/
def deserializeMessage (data : List Nat) : Option WireMsg :=
  match data with
  | [] => none
  | t :: _ =>
    if t = 1 then
      if data.length < 40 then none
      else
        some (WireMsg.data (rstripZeros (readBytes data 1 16))
          (beNat (readBytes data 17 4)) (beNat (readBytes data 21 4))
          (beNat (readBytes data 25 4)) (beNat (readBytes data 29 2))
          (beNat (readBytes data 31 2)) (beNat (readBytes data 33 4))
          (readBytes data 40 (beNat (readBytes data 38 2))))
    else if t = 2 then
      if data.length < 23 then none
      else
        let raw_watermark := beNat (readBytes data 17 4)
        let recv_watermark : Int :=
          if raw_watermark = 0xFFFFFFFF then -1 else (raw_watermark : Int)
        let bitmap := readBytes data 23 (beNat (readBytes data 21 2))
        some (WireMsg.sack (rstripZeros (readBytes data 1 16))
          recv_watermark bitmap
          (finsetAscList (sackAckedSet recv_watermark bitmap)))
    else if t = 3 then
      if data.length < 23 then none
      else
        match jsonRanges (readBytes data 23 (beNat (readBytes data 21 2)))
        with
        | some ranges =>
          some (WireMsg.custodyReq (rstripZeros (readBytes data 1 16))
            (beNat (readBytes data 17 4)) ranges)
        | none => none
    else if t = 4 then
      if data.length < 27 then none
      else
        match jsonRanges (readBytes data 27 (beNat (readBytes data 25 2)))
        with
        | some ranges =>
          some (WireMsg.custodyAck (rstripZeros (readBytes data 1 16))
            (beNat (readBytes data 17 8)) ranges)
        | none => none
    else if t = 5 then
      if data.length < 17 then none
      else some (WireMsg.delivered (rstripZeros (readBytes data 1 16)))
    else (jsonLoads data).map WireMsg.jsonVal

/-!
## Claim theorems
-/

/-- Concrete sender state for the RTO theorems: 4 chunks, chunk 0 in
flight (first sent at t = 0 ms), nothing acked or retransmitted yet. -/
def rtoSt : SendState :=
  { bundle_id := "b"
    window_end := 4
    window_size := 4
    total_chunks := 4
    send_timestamps := fun c => if c = 0 then some 0 else none }

/-- Concrete configuration with `base_rto_ms = 100 < max_rto_ms = 500`. -/
def rtoCfg : TransferConfig := { base_rto_ms := 100, max_rto_ms := 500 }

/-- `set(msg["acked_chunks"])` as computed by `handle_sack` from the
decoded SACK dictionary. -/
def msgAckedSet (acked_chunks : List Nat) : Finset Nat :=
  acked_chunks.toFinset

/-- Concrete sender state for the completion theorems: 2 chunks, nothing
acked, not completed. -/
def c10St : SendState :=
  { bundle_id := "b"
    window_end := 2
    window_size := 4
    total_chunks := 2 }

/-- A concrete SACK datagram for bundle `"b"`: watermark `0xFFFFFFFF`
("none"), 1 bitmap byte `0x60` acking chunk ids 1 and 2. -/
def c10Bytes : List Nat :=
  [2, 98, 0, 0, 0, 0, 0, 0, 0, 0, 0, 0, 0, 0, 0, 0, 0,
   255, 255, 255, 255, 0, 1, 96]

/-- C4 (counterexample): for the 3-byte file `[1,2,3]` with
`chunk_size = 2` and FEC off, `send_file` produces two chunks and commits
them as two single-row transactions, not as one atomic group: the commit
trace is not the single transaction holding both rows, and the crash
point after the first commit leaves a nonempty proper subset of the chunk
rows durable. -/
theorem sendfile_bulk_commit_counterexample :
    (createChunks ({ chunk_size := 2 } : TransferConfig) ({} : FECConfig)
        [1, 2, 3] "b1" false).length = 2 ∧
    chunkTxns (sendFilePersistOps
        (createChunks ({ chunk_size := 2 } : TransferConfig)
          ({} : FECConfig) [1, 2, 3] "b1" false) "b1") ≠
      [createChunks ({ chunk_size := 2 } : TransferConfig)
        ({} : FECConfig) [1, 2, 3] "b1" false] ∧
    durableChunksAfter (chunkTxns (sendFilePersistOps
        (createChunks ({ chunk_size := 2 } : TransferConfig)
          ({} : FECConfig) [1, 2, 3] "b1" false) "b1")) 1 ≠ [] ∧
    durableChunksAfter (chunkTxns (sendFilePersistOps
        (createChunks ({ chunk_size := 2 } : TransferConfig)
          ({} : FECConfig) [1, 2, 3] "b1" false) "b1")) 1 ≠
      createChunks ({ chunk_size := 2 } : TransferConfig) ({} : FECConfig)
        [1, 2, 3] "b1" false := by
  decide

/-- C4 (amended): `send_file` persists chunks through one `save_chunk`
call per chunk, and `save_chunk` is a single-row `save_chunks_bulk`
transaction — so the commit trace is exactly one single-row atomic
transaction per chunk (each row is durable atomically by itself, and all
rows are durable once the loop finishes), not one atomic group for the
whole bundle. -/
theorem sendfile_chunk_commits_one_per_chunk (chunks : List Chunk)
    (bundle_id : String) :
    chunkTxns (sendFilePersistOps chunks bundle_id) =
      chunks.map (fun c => [c]) ∧
    (chunkTxns (sendFilePersistOps chunks bundle_id)).flatten = chunks := by
  refine ⟨chunkTxns_sendFilePersistOps chunks bundle_id, ?_⟩
  rw [chunkTxns_sendFilePersistOps]
  induction chunks with
  | nil => rfl
  | cons c cs ih => simp [ih]

theorem createDataChunks_length (fecCfg : FECConfig) (cs : Nat)
    (fd : List Nat) (bid : String) (fe : Bool) :
    (createDataChunks fecCfg cs fd bid fe).length =
      (fd.length + cs - 1) / cs := by
  simp [createDataChunks]

theorem createDataChunks_ids (fecCfg : FECConfig) (cs : Nat)
    (fd : List Nat) (bid : String) (fe : Bool) :
    (createDataChunks fecCfg cs fd bid fe).map (·.chunk_id) =
      List.range ((fd.length + cs - 1) / cs) := by
  unfold createDataChunks
  rw [List.map_map]
  show (List.range ((fd.length + cs - 1) / cs)).map (fun i => i) =
    List.range ((fd.length + cs - 1) / cs)
  simp

theorem flatMap_congr_mem {α β : Type} (l : List α) (F G : α → List β)
    (h : ∀ a ∈ l, F a = G a) : l.flatMap F = l.flatMap G := by
  induction l with
  | nil => rfl
  | cons a t ih =>
    rw [List.flatMap_cons, List.flatMap_cons,
      h a (List.mem_cons_self a t),
      ih (fun x hx => h x (List.mem_cons_of_mem a hx))]

theorem length_flatMap_const {α β : Type} (l : List α) (F : α → List β)
    (r : Nat) (h : ∀ a ∈ l, (F a).length = r) :
    (l.flatMap F).length = l.length * r := by
  induction l with
  | nil => simp
  | cons a t ih =>
    rw [List.flatMap_cons, List.length_append,
      h a (List.mem_cons_self a t),
      ih (fun x hx => h x (List.mem_cons_of_mem a hx))]
    simp [Nat.succ_mul, Nat.add_comm]

theorem blockStart_lt (n k b : Nat) (hk : 0 < k)
    (hb : b < (n + k - 1) / k) : b * k < n := by
  have h1 : (b + 1) * k ≤ n + k - 1 :=
    (Nat.le_div_iff_mul_le hk).mp hb
  rw [Nat.succ_mul] at h1
  omega

theorem generateFecChunks_ids (fecCfg : FECConfig)
    (data_chunks : List Chunk) (bid : String) (hk : 0 < fecCfg.k)
    (hr : 0 < fecCfg.r) :
    (generateFecChunks fecCfg data_chunks bid).map (·.chunk_id) =
      (List.range
          ((data_chunks.length + fecCfg.k - 1) / fecCfg.k)).flatMap
        (fun b => (List.range fecCfg.r).map
          (fun j => data_chunks.length + b * fecCfg.r + j)) := by
  unfold generateFecChunks
  rw [if_neg (by omega)]
  rw [List.map_flatMap, List.flatMap_map]
  refine flatMap_congr_mem _ _ _ ?_
  intro b hb
  have hb' : b < (data_chunks.length + fecCfg.k - 1) / fecCfg.k :=
    List.mem_range.mp hb
  have hlt : b * fecCfg.k < data_chunks.length :=
    blockStart_lt _ _ _ hk hb'
  have hne :
      ((data_chunks.drop (b * fecCfg.k)).take fecCfg.k).isEmpty = false := by
    rw [List.isEmpty_eq_false_iff_exists_mem]
    have hlen :
        ((data_chunks.drop (b * fecCfg.k)).take fecCfg.k).length =
          min fecCfg.k (data_chunks.length - b * fecCfg.k) := by
      simp [List.length_take, List.length_drop]
    have hpos :
        0 < ((data_chunks.drop (b * fecCfg.k)).take fecCfg.k).length := by
      rw [hlen]; omega
    exact List.exists_mem_of_length_pos hpos
  simp only [hne, Bool.false_eq_true, if_false, List.map_map]
  have hdiv : b * fecCfg.k / fecCfg.k = b := Nat.mul_div_cancel b hk
  rw [hdiv]
  rfl

/-- C5: for every input file and every `chunk_size ≥ 1`, with
`N = ⌈size/chunk_size⌉ = (size + chunk_size − 1) / chunk_size`:
when FEC is effective (`fec_enabled` and config-enabled and `k, r > 0`)
`send_file` produces `N + r·⌈N/k⌉` chunks with data ids `[0, N)` and the
parity ids of block `b` at `N + b·r + j`, `j ∈ [0, r)`; otherwise exactly
the `N` data chunks with ids `[0, N)`. -/
theorem sendfile_chunk_count_and_layout (cfg : TransferConfig)
    (fecCfg : FECConfig) (file_data : List Nat) (bundle_id : String)
    (fec_enabled : Bool) (hcs : 1 ≤ cfg.chunk_size) :
    ((fec_enabled = true ∧ fecCfg.enabled = true ∧ 0 < fecCfg.k ∧
        0 < fecCfg.r) →
      (createChunks cfg fecCfg file_data bundle_id fec_enabled).length =
        (file_data.length + cfg.chunk_size - 1) / cfg.chunk_size +
          fecCfg.r *
            (((file_data.length + cfg.chunk_size - 1) / cfg.chunk_size +
                fecCfg.k - 1) / fecCfg.k) ∧
      (createChunks cfg fecCfg file_data bundle_id fec_enabled).map
          (·.chunk_id) =
        List.range
            ((file_data.length + cfg.chunk_size - 1) / cfg.chunk_size) ++
          (List.range
              (((file_data.length + cfg.chunk_size - 1) / cfg.chunk_size +
                  fecCfg.k - 1) / fecCfg.k)).flatMap
            (fun b => (List.range fecCfg.r).map
              (fun j =>
                (file_data.length + cfg.chunk_size - 1) / cfg.chunk_size +
                  b * fecCfg.r + j))) ∧
    (¬(fec_enabled = true ∧ fecCfg.enabled = true ∧ 0 < fecCfg.k ∧
        0 < fecCfg.r) →
      (createChunks cfg fecCfg file_data bundle_id fec_enabled).length =
        (file_data.length + cfg.chunk_size - 1) / cfg.chunk_size ∧
      (createChunks cfg fecCfg file_data bundle_id fec_enabled).map
          (·.chunk_id) =
        List.range
          ((file_data.length + cfg.chunk_size - 1) / cfg.chunk_size)) := by
  constructor
  · intro hgate
    unfold createChunks
    rw [if_pos hgate]
    obtain ⟨-, -, hk, hr⟩ := hgate
    have hids :
        ((createDataChunks fecCfg cfg.chunk_size file_data bundle_id
            fec_enabled) ++
          generateFecChunks fecCfg
            (createDataChunks fecCfg cfg.chunk_size file_data bundle_id
              fec_enabled) bundle_id).map (·.chunk_id) =
        List.range
            ((file_data.length + cfg.chunk_size - 1) / cfg.chunk_size) ++
          (List.range
              (((file_data.length + cfg.chunk_size - 1) / cfg.chunk_size +
                  fecCfg.k - 1) / fecCfg.k)).flatMap
            (fun b => (List.range fecCfg.r).map
              (fun j =>
                (file_data.length + cfg.chunk_size - 1) / cfg.chunk_size +
                  b * fecCfg.r + j)) := by
      rw [List.map_append, createDataChunks_ids,
        generateFecChunks_ids fecCfg _ bundle_id hk hr,
        createDataChunks_length]
    refine ⟨?_, hids⟩
    rw [List.length_append, createDataChunks_length]
    congr 1
    have hlen2 := congrArg List.length
      (generateFecChunks_ids fecCfg
        (createDataChunks fecCfg cfg.chunk_size file_data bundle_id
          fec_enabled) bundle_id hk hr)
    rw [List.length_map] at hlen2
    rw [hlen2,
      length_flatMap_const _ _ fecCfg.r (fun b _ => by simp),
      List.length_range, createDataChunks_length, Nat.mul_comm]
  · intro hgate
    unfold createChunks
    rw [if_neg hgate]
    exact ⟨createDataChunks_length _ _ _ _ _,
      createDataChunks_ids _ _ _ _ _⟩

/-- Witness for C5: a 3-byte file at `chunk_size = 2` with `k = 2`,
`r = 1` FEC. -/
theorem sendfile_chunk_count_and_layout_witness :
    (((true : Bool) = true ∧
        ({ k := 2, r := 1 } : FECConfig).enabled = true ∧
        0 < ({ k := 2, r := 1 } : FECConfig).k ∧
        0 < ({ k := 2, r := 1 } : FECConfig).r) →
      (createChunks ({ chunk_size := 2 } : TransferConfig)
          ({ k := 2, r := 1 } : FECConfig) [1, 2, 3] "b1" true).length =
        (([1, 2, 3] : List Nat).length + 2 - 1) / 2 +
          ({ k := 2, r := 1 } : FECConfig).r *
            (((([1, 2, 3] : List Nat).length + 2 - 1) / 2 +
                ({ k := 2, r := 1 } : FECConfig).k - 1) /
              ({ k := 2, r := 1 } : FECConfig).k) ∧
      (createChunks ({ chunk_size := 2 } : TransferConfig)
          ({ k := 2, r := 1 } : FECConfig) [1, 2, 3] "b1" true).map
          (·.chunk_id) =
        List.range ((([1, 2, 3] : List Nat).length + 2 - 1) / 2) ++
          (List.range
              (((([1, 2, 3] : List Nat).length + 2 - 1) / 2 +
                  ({ k := 2, r := 1 } : FECConfig).k - 1) /
                ({ k := 2, r := 1 } : FECConfig).k)).flatMap
            (fun b => (List.range ({ k := 2, r := 1 } : FECConfig).r).map
              (fun j =>
                (([1, 2, 3] : List Nat).length + 2 - 1) / 2 +
                  b * ({ k := 2, r := 1 } : FECConfig).r + j))) ∧
    (¬((true : Bool) = true ∧
        ({ k := 2, r := 1 } : FECConfig).enabled = true ∧
        0 < ({ k := 2, r := 1 } : FECConfig).k ∧
        0 < ({ k := 2, r := 1 } : FECConfig).r) →
      (createChunks ({ chunk_size := 2 } : TransferConfig)
          ({ k := 2, r := 1 } : FECConfig) [1, 2, 3] "b1" true).length =
        (([1, 2, 3] : List Nat).length + 2 - 1) / 2 ∧
      (createChunks ({ chunk_size := 2 } : TransferConfig)
          ({ k := 2, r := 1 } : FECConfig) [1, 2, 3] "b1" true).map
          (·.chunk_id) =
        List.range ((([1, 2, 3] : List Nat).length + 2 - 1) / 2)) :=
  sendfile_chunk_count_and_layout ({ chunk_size := 2 } : TransferConfig)
    ({ k := 2, r := 1 } : FECConfig) [1, 2, 3] "b1" true (by decide)

/-- C6: across any sequence of `handle_sack` calls for one bundle,
`window_start` is non-decreasing and the acked set only grows; each call
ORs the incoming SACK's acked set into the sender's, so no chunk id is
ever removed from `acked_chunks`. -/
theorem sack_monotonic_window (cfg : TransferConfig)
    (cache : Nat → Option Chunk) (sendOk : Nat → Bool)
    (msgs : List (Finset Nat × ℚ)) (st : SendState) :
    st.window_start ≤
      (msgs.foldl
        (fun s x => (handleSack cfg cache sendOk s x.1 x.2).1)
        st).window_start ∧
    st.acked_chunks ⊆
      (msgs.foldl
        (fun s x => (handleSack cfg cache sendOk s x.1 x.2).1)
        st).acked_chunks ∧
    ∀ (m : Finset Nat) (now : ℚ),
      (handleSack cfg cache sendOk st m now).1.acked_chunks =
        st.acked_chunks ∪ m := by
  have hstep_ws : ∀ (s : SendState) (x : Finset Nat × ℚ),
      s.window_start ≤
        ((handleSack cfg cache sendOk s x.1 x.2).1).window_start := by
    intro s x
    rw [handleSack_fst_ws]
    exact advanceWindowFrom_ge _ _ _
  have hstep_acked : ∀ (s : SendState) (x : Finset Nat × ℚ),
      s.acked_chunks ⊆
        ((handleSack cfg cache sendOk s x.1 x.2).1).acked_chunks := by
    intro s x
    rw [handleSack_fst_acked]
    exact Finset.subset_union_left
  have hfold : ∀ (l : List (Finset Nat × ℚ)) (s : SendState),
      s.window_start ≤
        (l.foldl (fun s x => (handleSack cfg cache sendOk s x.1 x.2).1)
          s).window_start ∧
      s.acked_chunks ⊆
        (l.foldl (fun s x => (handleSack cfg cache sendOk s x.1 x.2).1)
          s).acked_chunks := by
    intro l
    induction l with
    | nil => intro s; exact ⟨Nat.le_refl _, Finset.Subset.refl _⟩
    | cons x xs ih =>
      intro s
      refine ⟨Nat.le_trans (hstep_ws s x) (ih _).1,
        Finset.Subset.trans (hstep_acked s x) (ih _).2⟩
  exact ⟨(hfold msgs st).1, (hfold msgs st).2, fun m now =>
    handleSack_fst_acked cfg cache sendOk st m now⟩

/-- C7: applying the same SACK to `handle_sack` twice in succession is
idempotent on the acked set and on `window_start`: the second application
(at any later time, with any cache/network behaviour) leaves both exactly
as the first application produced them. -/
theorem sack_replay_idempotent (cfg : TransferConfig)
    (cache cache₂ : Nat → Option Chunk) (sendOk sendOk₂ : Nat → Bool)
    (st : SendState) (m : Finset Nat) (now now₂ : ℚ) :
    (handleSack cfg cache₂ sendOk₂
        (handleSack cfg cache sendOk st m now).1 m now₂).1.acked_chunks =
      (handleSack cfg cache sendOk st m now).1.acked_chunks ∧
    (handleSack cfg cache₂ sendOk₂
        (handleSack cfg cache sendOk st m now).1 m now₂).1.window_start =
      (handleSack cfg cache sendOk st m now).1.window_start := by
  have h1a := handleSack_fst_acked cfg cache sendOk st m now
  have h1w := handleSack_fst_ws cfg cache sendOk st m now
  have h1t := handleSack_fst_total cfg cache sendOk st m now
  constructor
  · rw [handleSack_fst_acked, h1a, Finset.union_assoc, Finset.union_self]
  · rw [handleSack_fst_ws, h1a, h1w, h1t, Finset.union_assoc,
      Finset.union_self, advanceWindowFrom_fix]

/-- C3 (counterexample): with `base_rto_ms = 100`, `max_rto_ms = 500`,
acking never-retransmitted chunk 0 (sent at t = 0) at t = 1000 ms makes
`handle_sack` set `timeout_interval = 3000 ms`, which exceeds
`max_rto_ms`: the SACK path applies no upper clamp. -/
theorem sack_rto_exceeds_max_counterexample :
    (handleSack rtoCfg (fun _ => none) (fun _ => false) rtoSt {0}
        1000).1.timeout_interval = 3000 ∧
    rtoCfg.max_rto_ms = 500 ∧
    rtoCfg.max_rto_ms <
      (handleSack rtoCfg (fun _ => none) (fun _ => false) rtoSt {0}
        1000).1.timeout_interval ∧
    (0 : Nat) ∈ ({0} : Finset Nat) \ rtoSt.acked_chunks ∧
    (0 : Nat) ∉ rtoSt.retransmitted_chunks := by
  have hlist :
      finsetAscList (({0} : Finset Nat) \ rtoSt.acked_chunks) = [0] := by
    decide
  have hne : ((({0} : Finset Nat)) \ rtoSt.acked_chunks).Nonempty := by
    decide
  have hsrtt : (handleSackState rtoCfg rtoSt {0} 1000).smoothed_rtt =
      1000 := by
    rw [handleSackState_srtt_eq, hlist]
    simp [sackAckStep, rtoSt, updateRttEstimates]
  have hvar : (handleSackState rtoCfg rtoSt {0} 1000).rtt_variance =
      500 := by
    rw [handleSackState_rttvar_eq, hlist]
    simp [sackAckStep, rtoSt, updateRttEstimates]
    norm_num
  have htime :
      (handleSack rtoCfg (fun _ => none) (fun _ => false) rtoSt {0}
        1000).1.timeout_interval = 3000 := by
    rw [handleSack_fst_timeout, handleSackState_rto rtoCfg rtoSt _ _ hne,
      hsrtt, hvar]
    rw [max_eq_left (by norm_num [rtoCfg] :
      rtoCfg.base_rto_ms ≤ 1000 + 4 * 500)]
    norm_num
  refine ⟨htime, rfl, ?_, by decide, by decide⟩
  rw [htime]
  norm_num [rtoCfg]

/-- C3 (amended): when a SACK newly acknowledges at least one
never-retransmitted chunk, `handle_sack` leaves
`timeout_interval = max(sRTT + 4·RTTVAR, base_rto_ms)` — clamped below by
`base_rto_ms` but *not* clamped above by `max_rto_ms` (the
`_update_rtt_estimates` clamp is overwritten by the unclamped assignment
at the end of the newly-acked branch). -/
theorem sack_rto_base_clamp_only (cfg : TransferConfig)
    (cache : Nat → Option Chunk) (sendOk : Nat → Bool) (st : SendState)
    (m : Finset Nat) (now : ℚ)
    (hkarn : ∃ id ∈ m \ st.acked_chunks, id ∉ st.retransmitted_chunks) :
    (handleSack cfg cache sendOk st m now).1.timeout_interval =
      max ((handleSack cfg cache sendOk st m now).1.smoothed_rtt +
            4 * (handleSack cfg cache sendOk st m now).1.rtt_variance)
        cfg.base_rto_ms ∧
    cfg.base_rto_ms ≤
      (handleSack cfg cache sendOk st m now).1.timeout_interval := by
  have hne : (m \ st.acked_chunks).Nonempty := by
    obtain ⟨id, hid, _⟩ := hkarn
    exact ⟨id, hid⟩
  have h := handleSackState_rto cfg st m now hne
  constructor
  · rw [handleSack_fst_timeout, handleSack_fst_srtt,
      handleSack_fst_rttvar]
    exact h
  · rw [handleSack_fst_timeout, h]
    exact le_max_right _ _

/-- Witness for C3 (amended) at the counterexample's input. -/
theorem sack_rto_base_clamp_only_witness :
    ((handleSack rtoCfg (fun _ => none) (fun _ => false) rtoSt {0}
        1000).1.timeout_interval =
      max ((handleSack rtoCfg (fun _ => none) (fun _ => false) rtoSt {0}
            1000).1.smoothed_rtt +
          4 * (handleSack rtoCfg (fun _ => none) (fun _ => false) rtoSt
                {0} 1000).1.rtt_variance)
        rtoCfg.base_rto_ms ∧
     rtoCfg.base_rto_ms ≤
       (handleSack rtoCfg (fun _ => none) (fun _ => false) rtoSt {0}
         1000).1.timeout_interval) :=
  sack_rto_base_clamp_only rtoCfg (fun _ => none) (fun _ => false) rtoSt
    {0} 1000 ⟨0, by decide, by decide⟩

/-- C10: `handle_sack` marks a (not yet completed) bundle completed —
persisting `"delivered"` and the final counters — exactly when the acked
set's cardinality reaches `total_chunks`; and since decoded SACK bitmaps
can contribute ids ≥ `total_chunks`, which are ORed in and counted, the
concrete SACK datagram `c10Bytes` (acking ids 1 and 2) completes the
2-chunk bundle `c10St` although id 0 was never acknowledged. -/
theorem sack_completion_counts_out_of_range_ids (cfg : TransferConfig)
    (cache : Nat → Option Chunk) (sendOk : Nat → Bool) (st : SendState)
    (m : Finset Nat) (now : ℚ) (h : st.completed = false) :
    ((handleSack cfg cache sendOk st m now).1.completed = true ↔
      st.total_chunks ≤ (st.acked_chunks ∪ m).card) ∧
    (StorageOp.updateBundleState st.bundle_id "delivered" ∈
        (handleSack cfg cache sendOk st m now).2 ↔
      st.total_chunks ≤ (st.acked_chunks ∪ m).card) ∧
    deserializeMessage c10Bytes =
      some (WireMsg.sack [98] (-1) [96] [1, 2]) ∧
    (handleSack cfg cache sendOk c10St (msgAckedSet [1, 2])
        now).1.completed = true ∧
    (0 : Nat) ∉
      (handleSack cfg cache sendOk c10St (msgAckedSet [1, 2])
        now).1.acked_chunks ∧
    0 < c10St.total_chunks := by
  refine ⟨?_, ?_, by decide, ?_, ?_, by decide⟩
  · rw [handleSack_fst_completed, h]
    simp
  · rw [handleSack_snd, h]
    by_cases hc : st.total_chunks ≤ (st.acked_chunks ∪ m).card <;>
      simp [hc]
  · rw [handleSack_fst_completed]
    decide
  · rw [handleSack_fst_acked]
    decide

/-- Witness for C10 at the concrete bundle state and decoded SACK. -/
theorem sack_completion_counts_out_of_range_ids_witness :
    (((handleSack ({} : TransferConfig) (fun _ => none) (fun _ => false)
          c10St (msgAckedSet [1, 2]) 0).1.completed = true ↔
       c10St.total_chunks ≤
         (c10St.acked_chunks ∪ msgAckedSet [1, 2]).card) ∧
     (StorageOp.updateBundleState c10St.bundle_id "delivered" ∈
         (handleSack ({} : TransferConfig) (fun _ => none)
           (fun _ => false) c10St (msgAckedSet [1, 2]) 0).2 ↔
       c10St.total_chunks ≤
         (c10St.acked_chunks ∪ msgAckedSet [1, 2]).card) ∧
     deserializeMessage c10Bytes =
       some (WireMsg.sack [98] (-1) [96] [1, 2]) ∧
     (handleSack ({} : TransferConfig) (fun _ => none) (fun _ => false)
         c10St (msgAckedSet [1, 2]) 0).1.completed = true ∧
     (0 : Nat) ∉
       (handleSack ({} : TransferConfig) (fun _ => none) (fun _ => false)
         c10St (msgAckedSet [1, 2]) 0).1.acked_chunks ∧
     0 < c10St.total_chunks) :=
  sack_completion_counts_out_of_range_ids ({} : TransferConfig)
    (fun _ => none) (fun _ => false) c10St (msgAckedSet [1, 2]) 0 rfl

/-- C8 (counterexample): the one-byte datagram `b"7"` (first octet
`0x37`, not one of the five defined message types) is *not* dropped: the
decoder's `json.loads` fallback parses it and returns the JSON number 7
as a message. -/
theorem decoder_unknown_type_not_dropped_counterexample :
    deserializeMessage [55] = some (WireMsg.jsonVal (JsonVal.num 7)) ∧
    ¬(55 = 1 ∨ 55 = 2 ∨ 55 = 3 ∨ 55 = 4 ∨ 55 = 5) := by
  decide

/-- C8 (amended): a datagram shorter than the header of its declared
type (1–5) is dropped (`struct.unpack` raises and the decoder returns
`None`); but a datagram whose first octet is *not* a defined type is not
necessarily dropped — the decoder falls back to `json.loads` and returns
the parsed value when the bytes are valid JSON (e.g. `b"7"` decodes to
the number 7). -/
theorem decoder_short_header_dropped (data : List Nat) (t : Nat)
    (ht : data.head? = some t)
    (hshort : (t = 1 ∧ data.length < 40) ∨ (t = 2 ∧ data.length < 23) ∨
      (t = 3 ∧ data.length < 23) ∨ (t = 4 ∧ data.length < 27) ∨
      (t = 5 ∧ data.length < 17)) :
    deserializeMessage data = none ∧
    deserializeMessage [55] = some (WireMsg.jsonVal (JsonVal.num 7)) := by
  refine ⟨?_, by decide⟩
  cases data with
  | nil => simp at ht
  | cons b rest =>
    have hb : b = t := by simpa using ht
    subst hb
    rcases hshort with ⟨h1, hlen⟩ | ⟨h1, hlen⟩ | ⟨h1, hlen⟩ |
      ⟨h1, hlen⟩ | ⟨h1, hlen⟩ <;> subst h1 <;>
      (simp only [List.length_cons] at hlen
       simp [deserializeMessage]
       omega)

/-- Witness for C8 (amended): the one-byte datagram `[1]` declares DATA
but is shorter than the 40-byte DATA header. -/
theorem decoder_short_header_dropped_witness :
    deserializeMessage [1] = none ∧
    deserializeMessage [55] = some (WireMsg.jsonVal (JsonVal.num 7)) :=
  decoder_short_header_dropped [1] 1 rfl (Or.inl ⟨rfl, by decide⟩)

/-- Concrete receive state for the CRC theorems: FEC off, 2 data chunks
expected, nothing received yet. -/
def c1St : ReceiveState :=
  { bundle_id := "b1"
    total_chunks := 2
    fec_enabled := false
    k := 0
    r := 0
    output_path := "received/bundle_b1.bin"
    num_data_chunks := 2 }

/-- A DATA message whose declared checksum (0) does not match
`crc32([1,2,3])`. -/
def c1Msg : DataMsg :=
  { bundle_id := "b1"
    chunk_id := 0
    total_chunks := 2
    block_id := 0
    k := 0
    r := 0
    checksum := 0
    payload := [1, 2, 3] }

set_option maxRecDepth 40000 in
/-- C1 (counterexample): `handle_data` accepts the CRC-mismatched
message `c1Msg`: the received set changes from `∅` to `{0}` and the
payload is stored, contradicting the silently-dropped policy. -/
theorem data_crc_mismatch_not_dropped_counterexample :
    c1Msg.checksum ≠ crc32 c1Msg.payload ∧
    c1St.received_chunks = ∅ ∧
    (handleData ({} : FECConfig) "received" (some c1St) c1Msg
        0).1.received_chunks = {0} ∧
    (handleData ({} : FECConfig) "received" (some c1St) c1Msg
        0).1.data_chunks 0 = some [1, 2, 3] := by
  decide

theorem receiveClassify_received (st : ReceiveState) (msg : DataMsg) :
    (receiveClassify st msg).received_chunks =
      insert msg.chunk_id st.received_chunks := by
  unfold receiveClassify storeData storeParity
  dsimp only
  split
  · split <;> rfl
  · rfl

theorem receiveClassify_fec (st : ReceiveState) (msg : DataMsg) :
    (receiveClassify st msg).fec_enabled = st.fec_enabled := by
  unfold receiveClassify storeData storeParity
  dsimp only
  split
  · split <;> rfl
  · rfl

theorem receiveClassify_data_off (st : ReceiveState) (msg : DataMsg)
    (hoff : st.fec_enabled = false) :
    (receiveClassify st msg).data_chunks msg.chunk_id =
      some msg.payload := by
  unfold receiveClassify storeData
  dsimp only
  rw [if_neg (by simp [hoff])]
  simp

theorem tryFecReconstruct_received_mono (st : ReceiveState) (b : Nat) :
    st.received_chunks ⊆ (tryFecReconstruct st b).1.received_chunks := by
  unfold tryFecReconstruct
  split
  · exact Finset.Subset.refl _
  · split
    · exact Finset.Subset.refl _
    · dsimp only
      split
      · exact Finset.subset_insert _ _
      · exact Finset.Subset.refl _

theorem flushIfNeeded_fields (st : ReceiveState) :
    (flushIfNeeded st).1.received_chunks = st.received_chunks ∧
    (flushIfNeeded st).1.data_chunks = st.data_chunks := by
  unfold flushIfNeeded
  split <;> exact ⟨rfl, rfl⟩

theorem maybeDeliver_fields (st : ReceiveState) (nonce : Nat) :
    (maybeDeliver st nonce).1.received_chunks = st.received_chunks ∧
    (maybeDeliver st nonce).1.data_chunks = st.data_chunks := by
  unfold maybeDeliver
  split
  · exact ⟨rfl, rfl⟩
  · dsimp only
    split <;> (split <;> exact ⟨rfl, rfl⟩)

/-- C1 (amended): the receive path performs no CRC validation: a DATA
message whose declared CRC-32 does not match its payload and whose chunk
id is new is processed exactly like a valid one — the chunk id enters the
received set, and (with FEC off) the payload is stored in `data_chunks`.
No negative acknowledgement exists anywhere in the protocol (`RecvOut`
has no such event), so "no negative ack is sent" remains trivially true —
but the message is not dropped. -/
theorem data_crc_mismatch_still_processed (fecCfg : FECConfig)
    (out : String) (st : ReceiveState) (msg : DataMsg) (nonce : Nat)
    (hmis : msg.checksum ≠ crc32 msg.payload)
    (hnew : msg.chunk_id ∉ st.received_chunks) :
    msg.chunk_id ∈
      (handleData fecCfg out (some st) msg nonce).1.received_chunks ∧
    (st.fec_enabled = false →
      (handleData fecCfg out (some st) msg nonce).1.data_chunks
        msg.chunk_id = some msg.payload) := by
  unfold handleData
  dsimp only
  rw [if_neg hnew]
  unfold handleFreshData
  dsimp only
  have hmem : msg.chunk_id ∈ (receiveClassify st msg).received_chunks := by
    rw [receiveClassify_received]
    exact Finset.mem_insert_self _ _
  constructor
  · rw [(maybeDeliver_fields _ nonce).1, (flushIfNeeded_fields _).1]
    split
    · exact tryFecReconstruct_received_mono _ _ hmem
    · exact hmem
  · intro hoff
    rw [(maybeDeliver_fields _ nonce).2, (flushIfNeeded_fields _).2]
    split
    · next h =>
      exfalso
      have : (receiveClassify st msg).fec_enabled = true := h
      rw [receiveClassify_fec, hoff] at this
      exact Bool.false_ne_true this
    · exact receiveClassify_data_off st msg hoff

/-!
### XOR-recovery algebra for C2
-/

theorem byteAt_xorPayloads_cons (p : List Nat) (ps : List (List Nat))
    (i : Nat) :
    byteAt (xorPayloads (p :: ps)) i =
      xorFold ((p :: ps).map (fun l => byteAt l i)) := by
  show byteAt (xorBytes p ps) i = _
  rw [byteAt_xorBytes, ← List.foldl_map (fun l => byteAt l i)
    (fun acc x => acc ^^^ x), foldl_xor_eq_xorFold, List.map_cons,
    xorFold_cons]

theorem byteAt_xorBytes_fold (base : List Nat)
    (others : List (List Nat)) (i : Nat) :
    byteAt (xorBytes base others) i =
      byteAt base i ^^^ xorFold (others.map (fun l => byteAt l i)) := by
  rw [byteAt_xorBytes, ← List.foldl_map (fun l => byteAt l i)
    (fun acc x => acc ^^^ x), foldl_xor_eq_xorFold]

theorem length_xorPayloads_cons (p : List Nat) (ps : List (List Nat)) :
    (xorPayloads (p :: ps)).length = maxLen (p :: ps) := by
  show (xorBytes p ps).length = _
  rw [length_xorBytes]
  show _ = (p :: ps).foldl (fun acc l => max acc l.length) 0
  rw [List.foldl_cons, Nat.zero_max]

theorem foldl_max_of_all_le (ls : List (List Nat)) :
    ∀ b : Nat, (∀ l ∈ ls, l.length ≤ b) →
      ls.foldl (fun acc l => max acc l.length) b = b := by
  induction ls with
  | nil => intro b _; rfl
  | cons x t ih =>
    intro b h
    rw [List.foldl_cons,
      max_eq_left (h x (List.mem_cons_self x t))]
    exact ih b (fun l hl => h l (List.mem_cons_of_mem x hl))

theorem le_foldl_max (ls : List (List Nat)) :
    ∀ b : Nat, b ≤ ls.foldl (fun acc l => max acc l.length) b := by
  induction ls with
  | nil => intro b; exact Nat.le_refl b
  | cons x t ih =>
    intro b
    exact Nat.le_trans (Nat.le_max_left b x.length) (ih _)

theorem mem_le_foldl_max (ls : List (List Nat)) :
    ∀ (b : Nat) (l : List Nat), l ∈ ls →
      l.length ≤ ls.foldl (fun acc l => max acc l.length) b := by
  induction ls with
  | nil => intro b l hl; cases hl
  | cons x t ih =>
    intro b l hl
    rcases List.mem_cons.mp hl with h | h
    · subst h
      exact Nat.le_trans (Nat.le_max_right b l.length) (le_foldl_max t _)
    · exact ih _ l h

theorem le_maxLen (ls : List (List Nat)) (l : List Nat) (hl : l ∈ ls) :
    l.length ≤ maxLen ls :=
  mem_le_foldl_max ls 0 l hl

theorem getD_mem_of_lt (ps : List (List Nat)) (j : Nat)
    (hj : j < ps.length) : ps.getD j [] ∈ ps := by
  rw [List.getD_eq_getElem?_getD, List.getElem?_eq_getElem hj]
  exact List.getElem_mem hj

theorem map_getD_range (ps : List (List Nat)) (f : List Nat → Nat) :
    (List.range ps.length).map (fun j => f (ps.getD j [])) = ps.map f := by
  induction ps with
  | nil => rfl
  | cons x t ih =>
    rw [List.length_cons, List.range_succ_eq_map, List.map_cons,
      List.map_map]
    show (f ((x :: t).getD 0 []) ::
      (List.range t.length).map (fun j => f ((x :: t).getD (j + 1) []))) =
      f x :: t.map f
    simp only [List.getD_cons_zero, List.getD_cons_succ]
    rw [ih]

/-- The central XOR cancellation: recovering the missing payload from the
block parity and the other payloads yields the original payload, padded
with zeroes up to the block's maximal payload length; when the missing
payload already has that maximal length, recovery is bit-exact. -/
theorem xorRecover (ps : List (List Nat)) (m : Nat)
    (hm : m < ps.length) (hmax : (ps.getD m []).length = maxLen ps) :
    xorBytes (xorPayloads ps)
        (((List.range ps.length).filter (fun j => j ≠ m)).map
          (fun j => ps.getD j [])) =
      ps.getD m [] := by
  cases ps with
  | nil => cases hm
  | cons p0 rest =>
    apply byteAt_ext
    · rw [length_xorBytes]
      rw [show (xorPayloads (p0 :: rest)).length = maxLen (p0 :: rest)
        from length_xorPayloads_cons p0 rest]
      rw [foldl_max_of_all_le]
      · exact hmax.symm
      · intro l hl
        obtain ⟨j, hj, hjl⟩ := List.mem_map.mp hl
        have hjlt : j < (p0 :: rest).length :=
          List.mem_range.mp (List.mem_of_mem_filter hj)
        rw [← hjl]
        exact le_maxLen _ _ (getD_mem_of_lt _ j hjlt)
    · intro i
      rw [byteAt_xorBytes_fold, byteAt_xorPayloads_cons, List.map_map]
      simp only [Function.comp_def]
      have hremove := xorFold_range_remove
        (fun j => byteAt ((p0 :: rest).getD j []) i)
        (p0 :: rest).length m hm
      rw [map_getD_range (p0 :: rest) (fun l => byteAt l i)] at hremove
      rw [hremove, Nat.xor_assoc, Nat.xor_self, Nat.xor_zero]

/-- The first data payload of the C2 counterexample block (full-length
chunk, 4 bytes). -/
def c2PayloadA : List Nat := [97, 98, 255, 1]

/-- The second data payload of the C2 counterexample block (the short
final chunk of the file, 2 bytes). -/
def c2PayloadB : List Nat := [99, 100]

/-- Receive state holding the first data chunk and the sender's parity of
the block `[c2PayloadA, c2PayloadB]`; chunk 1 (the short one) is missing. -/
def c2St : ReceiveState :=
  { bundle_id := "b2"
    total_chunks := 3
    fec_enabled := true
    k := 2
    r := 1
    output_path := "received/bundle_b2.bin"
    num_data_chunks := 2
    received_chunks := {0, 2}
    data_chunks := fun c => if c = 0 then some c2PayloadA else none
    parity_chunks := fun b =>
      if b = 0 then [xorPayloads [c2PayloadA, c2PayloadB]] else [] }

set_option maxRecDepth 40000 in
/-- C2 (counterexample): in the block `[c2PayloadA, c2PayloadB]` with the
short chunk missing, all other data and one parity delivered,
`_try_fec_reconstruct` recovers `[99,100,0,0]` — the original payload
zero-padded to the block's maximal payload length — which is not
bit-equal to the original `[99,100]`, and its CRC-32 differs from the
original chunk's checksum. -/
theorem fec_reconstruct_zero_pad_counterexample :
    (tryFecReconstruct c2St 0).1.data_chunks 1 = some [99, 100, 0, 0] ∧
    ([99, 100, 0, 0] : List Nat) ≠ c2PayloadB ∧
    crc32 [99, 100, 0, 0] ≠ crc32 c2PayloadB ∧
    c2St.fec_enabled = true ∧ 0 < c2St.k ∧ 0 < c2St.r ∧
    c2St.data_chunks 0 = some c2PayloadA ∧
    c2St.data_chunks 1 = none ∧
    c2St.parity_chunks 0 = [xorPayloads [c2PayloadA, c2PayloadB]] := by
  decide

/-- C2 (amended): with FEC on (`k, r ≥ 1`), for a block whose original
payloads are `ps`, when exactly the data chunk at block offset `m` is
missing, all other data chunks of the block are held and the sender's
parity `xorPayloads ps` has been delivered, `_try_fec_reconstruct`
recovers the missing chunk bit-equal to the original payload — and hence
with matching CRC-32 (the sender's checksum is `crc32` of the payload) —
*provided* the missing payload has the maximal length in its block (true
for every chunk except a shorter file-final chunk; in general recovery
yields the original payload zero-padded to the block maximum, as the
counterexample shows). -/
theorem fec_single_loss_reconstruct (st : ReceiveState)
    (block_id m : Nat) (ps : List (List Nat))
    (parityRest : List (List Nat))
    (hfec : st.fec_enabled = true) (hk : 0 < st.k) (hr : 0 < st.r)
    (hcnt : ps.length =
      min (block_id * st.k + st.k) st.num_data_chunks - block_id * st.k)
    (hm : m < ps.length)
    (hpar : st.parity_chunks block_id = xorPayloads ps :: parityRest)
    (hdata : ∀ j < ps.length,
      st.data_chunks (block_id * st.k + j) =
        if j = m then none else some (ps.getD j []))
    (hmax : (ps.getD m []).length = maxLen ps) :
    (tryFecReconstruct st block_id).1.data_chunks
        (block_id * st.k + m) = some (ps.getD m []) ∧
    block_id * st.k + m ∈
      (tryFecReconstruct st block_id).1.received_chunks ∧
    (tryFecReconstruct st block_id).2 =
      [RecvOut.storage (StorageOp.chunkTxn
        [{ bundle_id := st.bundle_id
           chunk_id := block_id * st.k + m
           is_parity := false
           block_id := block_id
           k := st.k
           r := st.r
           payload := ps.getD m []
           checksum := crc32 (ps.getD m [])
           flags := 0 }])] := by
  have hrange : List.range' (block_id * st.k)
      (min (block_id * st.k + st.k) st.num_data_chunks -
        block_id * st.k) =
      (List.range ps.length).map ((block_id * st.k) + ·) := by
    rw [← hcnt, List.range'_eq_map_range]
  have hmiss :
      (List.range' (block_id * st.k)
          (min (block_id * st.k + st.k) st.num_data_chunks -
            block_id * st.k)).filter
        (fun cid => (st.data_chunks cid).isNone) =
      [block_id * st.k + m] := by
    rw [hrange, List.filter_map]
    have hc : ((List.range ps.length).filter
        ((fun cid => (st.data_chunks cid).isNone) ∘
          ((block_id * st.k) + ·))) =
        (List.range ps.length).filter (fun j => j = m) := by
      refine List.filter_congr ?_
      intro j hj
      have hjlt := List.mem_range.mp hj
      show (st.data_chunks (block_id * st.k + j)).isNone = decide (j = m)
      rw [hdata j hjlt]
      by_cases hjm : j = m <;> simp [hjm]
    rw [hc, filter_range_eq_single ps.length m hm]
    rfl
  have hknowns :
      (((List.range' (block_id * st.k)
            (min (block_id * st.k + st.k) st.num_data_chunks -
              block_id * st.k)).filter
          (fun cid => (st.data_chunks cid).isSome)).map
        (fun cid => (st.data_chunks cid).getD [])) =
      ((List.range ps.length).filter (fun j => j ≠ m)).map
        (fun j => ps.getD j []) := by
    rw [hrange, List.filter_map]
    have hc : ((List.range ps.length).filter
        ((fun cid => (st.data_chunks cid).isSome) ∘
          ((block_id * st.k) + ·))) =
        (List.range ps.length).filter (fun j => j ≠ m) := by
      refine List.filter_congr ?_
      intro j hj
      have hjlt := List.mem_range.mp hj
      show (st.data_chunks (block_id * st.k + j)).isSome = decide (j ≠ m)
      rw [hdata j hjlt]
      by_cases hjm : j = m <;> simp [hjm]
    rw [hc, List.map_map]
    refine List.map_congr_left ?_
    intro j hj
    have hjlt := List.mem_range.mp (List.mem_of_mem_filter hj)
    have hjm : ¬(j = m) := by
      have := List.of_mem_filter hj
      simpa using this
    show (st.data_chunks (block_id * st.k + j)).getD [] = ps.getD j []
    rw [hdata j hjlt, if_neg hjm]
    rfl
  have hrec := xorRecover ps m hm hmax
  unfold tryFecReconstruct
  rw [if_neg (not_not_intro ⟨hfec, hk, hr⟩), hpar]
  dsimp only
  rw [hmiss]
  dsimp only
  rw [hknowns, hrec]
  refine ⟨?_, Finset.mem_insert_self _ _, rfl⟩
  simp

/-- Receive state for the C2 witness: block payloads `[[1,2],[3,4]]` of
equal (hence maximal) length, data chunk 1 missing, parity held. -/
def c2WSt : ReceiveState :=
  { bundle_id := "b3"
    total_chunks := 3
    fec_enabled := true
    k := 2
    r := 1
    output_path := "received/bundle_b3.bin"
    num_data_chunks := 2
    received_chunks := {0, 2}
    data_chunks := fun c => if c = 0 then some [1, 2] else none
    parity_chunks := fun b =>
      if b = 0 then [xorPayloads [[1, 2], [3, 4]]] else [] }

/-- Witness for C2 (amended) at a concrete equal-length block. -/
theorem fec_single_loss_reconstruct_witness :
    (tryFecReconstruct c2WSt 0).1.data_chunks (0 * c2WSt.k + 1) =
        some (([[1, 2], [3, 4]] : List (List Nat)).getD 1 []) ∧
    0 * c2WSt.k + 1 ∈ (tryFecReconstruct c2WSt 0).1.received_chunks ∧
    (tryFecReconstruct c2WSt 0).2 =
      [RecvOut.storage (StorageOp.chunkTxn
        [{ bundle_id := c2WSt.bundle_id
           chunk_id := 0 * c2WSt.k + 1
           is_parity := false
           block_id := 0
           k := c2WSt.k
           r := c2WSt.r
           payload := ([[1, 2], [3, 4]] : List (List Nat)).getD 1 []
           checksum :=
             crc32 (([[1, 2], [3, 4]] : List (List Nat)).getD 1 [])
           flags := 0 }])] :=
  fec_single_loss_reconstruct c2WSt 0 1 [[1, 2], [3, 4]] [] rfl
    (by decide) (by decide) (by decide) (by decide) rfl
    (by
      intro j hj
      match j with
      | 0 => rfl
      | 1 => rfl
      | j + 2 => simp at hj)
    (by decide)

set_option maxRecDepth 40000 in
/-- Witness for C1 (amended) at the concrete mismatched message. -/
theorem data_crc_mismatch_still_processed_witness :
    c1Msg.chunk_id ∈ (handleData ({} : FECConfig) "received" (some c1St)
        c1Msg 0).1.received_chunks ∧
    (c1St.fec_enabled = false →
      (handleData ({} : FECConfig) "received" (some c1St) c1Msg
          0).1.data_chunks c1Msg.chunk_id = some c1Msg.payload) :=
  data_crc_mismatch_still_processed ({} : FECConfig) "received" c1St
    c1Msg 0 (by decide) (by decide)

/-- C9: `handle_custody_req` builds and persists a custody record in
state `"accepted"` with `retry_count = 0` and `retry_timer = now +
backoff_base_sec`, and sends — before returning — a CUSTODY_ACK carrying
the request's own ranges and the freshly generated nonce (a 64-bit value,
`secrets.randbits(64)`). -/
theorem custody_req_accept_roundtrip (cfg : CustodyConfig)
    (node_id : String) (msg : CustodyReqMsg) (now : ℚ) (nonce : Nat)
    (h64 : nonce < 2 ^ 64) :
    (handleCustodyReq cfg node_id msg now nonce).1.state = "accepted" ∧
    (handleCustodyReq cfg node_id msg now nonce).1.retry_count = 0 ∧
    (handleCustodyReq cfg node_id msg now nonce).1.retry_timer =
      now + cfg.backoff_base_sec ∧
    (handleCustodyReq cfg node_id msg now nonce).1.chunk_ranges =
      msg.ranges ∧
    (handleCustodyReq cfg node_id msg now nonce).2 =
      [CustodyOut.saveRecord (handleCustodyReq cfg node_id msg now nonce).1,
       CustodyOut.sendCustodyAck msg.bundle_id msg.ranges nonce] ∧
    nonce < 2 ^ 64 :=
  ⟨rfl, rfl, rfl, rfl, rfl, h64⟩

/-- Witness for C9 at a concrete request. -/
theorem custody_req_accept_roundtrip_witness :
    (handleCustodyReq ({} : CustodyConfig) "n1"
        ⟨"b1", [(0, 10)], 60⟩ 100 5).1.state = "accepted" ∧
    (handleCustodyReq ({} : CustodyConfig) "n1"
        ⟨"b1", [(0, 10)], 60⟩ 100 5).1.retry_count = 0 ∧
    (handleCustodyReq ({} : CustodyConfig) "n1"
        ⟨"b1", [(0, 10)], 60⟩ 100 5).1.retry_timer =
      100 + ({} : CustodyConfig).backoff_base_sec ∧
    (handleCustodyReq ({} : CustodyConfig) "n1"
        ⟨"b1", [(0, 10)], 60⟩ 100 5).1.chunk_ranges = [(0, 10)] ∧
    (handleCustodyReq ({} : CustodyConfig) "n1"
        ⟨"b1", [(0, 10)], 60⟩ 100 5).2 =
      [CustodyOut.saveRecord (handleCustodyReq ({} : CustodyConfig) "n1"
          ⟨"b1", [(0, 10)], 60⟩ 100 5).1,
       CustodyOut.sendCustodyAck "b1" [(0, 10)] 5] ∧
    (5 : Nat) < 2 ^ 64 :=
  custody_req_accept_roundtrip ({} : CustodyConfig) "n1"
    ⟨"b1", [(0, 10)], 60⟩ 100 5 (by norm_num)

end Courier
